import Mathlib

/-!
Shallow embedding of the inventory-tracking application's collection store
(`db.js`), items API handlers and stats helper (items API file), and the
backup-migration handler (migrate API file).

Modelling conventions:
  * JavaScript primitive values are `JSVal`; numbers are `Option ℚ` with
    `none` standing for NaN.  IEEE infinities, float rounding and the
    exponential/hex forms of numeric strings are not modelled (no theorem
    below exercises them).
  * JavaScript objects are association lists `Obj` with unique keys; the
    spread `{...a, ...b}` is `mergeObj`, property assignment is `setField`,
    property access is `getField` (absent keys read as `undefined`).
  * The Vercel KV backend is a `Backend`: a total map from key to stored
    array plus per-key failure flags modelling thrown backend errors on
    `kv.get` / `kv.set` (the source catches those and degrades to `[]` /
    `false`).
  * `Date.now().toString()`, `new Date().toISOString()` and the date part
    of the ISO string are abstracted as the fields of a `JsTime`; the
    synthesized migration ids (`Date.now().toString() + Math.random()`)
    are abstracted as a supplied fresh-id function.
-/

/-- JavaScript primitive values; `num none` is NaN. -/
inductive JSVal where
  | undef
  | null
  | bool (b : Bool)
  | num (v : Option ℚ)
  | str (s : String)
  deriving DecidableEq, Repr

/-- A JavaScript object: association list of field name to value. -/
abbrev Obj := List (String × JSVal)

/-- Property read `o.k`: first entry with the key, `undefined` if absent. -/
def getField (o : Obj) (k : String) : JSVal :=
  match o.find? (fun p => p.1 = k) with
  | some p => p.2
  | none => JSVal.undef

/-- Does the object have the key? -/
def hasKey (o : Obj) (k : String) : Bool :=
  o.any (fun p => p.1 = k)

/-- Property assignment `o.k = v`: overwrite in place, else append. -/
def setField (o : Obj) (k : String) (v : JSVal) : Obj :=
  if hasKey o k then o.map (fun p => if p.1 = k then (k, v) else p)
  else o ++ [(k, v)]

/-- Object spread `{...a, ...b}`: `a`'s keys in order with `b`'s values
overriding, then `b`'s new keys appended. -/
def mergeObj (a b : Obj) : Obj :=
  a.map (fun p => if hasKey b p.1 then (p.1, getField b p.1) else p) ++
    b.filter (fun p => !hasKey a p.1)

/-- JavaScript truthiness. -/
def truthy : JSVal → Bool
  | JSVal.undef => false
  | JSVal.null => false
  | JSVal.bool b => b
  | JSVal.num none => false
  | JSVal.num (some q) => q ≠ 0
  | JSVal.str s => s ≠ ""

/-- Strict equality `===`.  `NaN === x` is false for every `x`. -/
def jsEq : JSVal → JSVal → Bool
  | JSVal.undef, JSVal.undef => true
  | JSVal.null, JSVal.null => true
  | JSVal.bool a, JSVal.bool b => a = b
  | JSVal.num (some a), JSVal.num (some b) => a = b
  | JSVal.str a, JSVal.str b => a = b
  | _, _ => false

def isWs (c : Char) : Bool :=
  c == ' ' || c == '\t' || c == '\n' || c == '\r'

/-- Numeric value of a digit string. -/
def digitsVal (ds : List Char) : ℕ :=
  ds.foldl (fun a c => a * 10 + (c.toNat - 48)) 0

/-- Value of a fractional digit string (the part after the dot). -/
def fracVal (ds : List Char) : ℚ :=
  (digitsVal ds : ℚ) / (10 ^ ds.length)

/-- Optional leading sign; returns (isNegative, rest). -/
def parseSign : List Char → Bool × List Char
  | '-' :: r => (true, r)
  | '+' :: r => (false, r)
  | cs => (false, cs)

/-- `parseInt(s)` (radix 10; the hex prefix form is not modelled):
skip leading whitespace, optional sign, longest digit prefix; NaN if no
digit. -/
def strParseInt (s : String) : Option ℤ :=
  let cs := s.toList.dropWhile isWs
  let sc := parseSign cs
  let ds := sc.2.takeWhile Char.isDigit
  if ds.isEmpty then none
  else some ((if sc.1 then -1 else 1) * (digitsVal ds : ℤ))

/-- `parseFloat(s)` (exponent forms not modelled): skip leading
whitespace, optional sign, digits with optional fractional part; trailing
garbage ignored; NaN if no digit at all. -/
def strParseFloat (s : String) : Option ℚ :=
  let cs := s.toList.dropWhile isWs
  let sc := parseSign cs
  let ds := sc.2.takeWhile Char.isDigit
  let fs := match sc.2.drop ds.length with
    | '.' :: r => r.takeWhile Char.isDigit
    | _ => []
  if ds.isEmpty && fs.isEmpty then none
  else some ((if sc.1 then -1 else 1) * ((digitsVal ds : ℚ) + fracVal fs))

/-- `ToNumber` on a string: trim both ends, empty is 0, otherwise the
whole remainder must be a (possibly signed, possibly fractional) decimal
numeral; anything else is NaN.  Hex, exponent and Infinity forms are not
modelled. -/
def strToNumber (s : String) : Option ℚ :=
  let cs := ((s.toList.dropWhile isWs).reverse.dropWhile isWs).reverse
  if cs.isEmpty then some 0
  else
    let sc := parseSign cs
    let ds := sc.2.takeWhile Char.isDigit
    let sgn : ℚ := if sc.1 then -1 else 1
    match sc.2.drop ds.length with
    | [] => if ds.isEmpty then none else some (sgn * (digitsVal ds : ℚ))
    | '.' :: r =>
      let fs := r.takeWhile Char.isDigit
      if !(r.drop fs.length).isEmpty then none
      else if ds.isEmpty && fs.isEmpty then none
      else some (sgn * ((digitsVal ds : ℚ) + fracVal fs))
    | _ => none

/-- `ToNumber` coercion. -/
def toNumber : JSVal → Option ℚ
  | JSVal.undef => none
  | JSVal.null => some 0
  | JSVal.bool b => some (if b then 1 else 0)
  | JSVal.num v => v
  | JSVal.str s => strToNumber s

/-- Truncation toward zero, as JavaScript number-to-string-to-parseInt
behaves on plainly rendered decimals. -/
def truncQ (q : ℚ) : ℤ :=
  if q < 0 then -(Int.floor (-q)) else Int.floor q

/-- Rendering of a rational as a JS number string.  Integers render as in
JS; the shortest-float rendering of non-integers is not modelled (the
fraction fallback below is never relied upon by a theorem). -/
def ratToStr (q : ℚ) : String :=
  if q.den = 1 then toString q.num
  else toString q.num ++ "/" ++ toString q.den

/-- `ToString` / template-literal coercion of a primitive. -/
def jsToStr : JSVal → String
  | JSVal.undef => "undefined"
  | JSVal.null => "null"
  | JSVal.bool b => if b then "true" else "false"
  | JSVal.num none => "NaN"
  | JSVal.num (some q) => ratToStr q
  | JSVal.str s => s

/-- `parseInt(v)`: the argument is coerced to string first, so
non-strings other than plain numbers give NaN. -/
def parseIntJS : JSVal → Option ℤ
  | JSVal.num (some q) => some (truncQ q)
  | JSVal.num none => none
  | JSVal.str s => strParseInt s
  | _ => none

/-- `parseFloat(v)`. -/
def parseFloatJS : JSVal → Option ℚ
  | JSVal.num v => v
  | JSVal.str s => strParseFloat s
  | _ => none

/-- `a || d` (only used where `d` is the default of a falsy slot). -/
def jsOr (a d : JSVal) : JSVal :=
  if truthy a then a else d

/-- `x || 0` applied to a parse result: NaN becomes 0. -/
def qOr0 (v : Option ℚ) : ℚ := v.getD 0

/-- `x || 0` applied to a `parseInt` result. -/
def intOr0 (v : Option ℤ) : ℤ := v.getD 0

/-- JavaScript `*`: both sides through `ToNumber`; NaN propagates. -/
def jsMul (a b : JSVal) : JSVal :=
  JSVal.num (match toNumber a, toNumber b with
    | some x, some y => some (x * y)
    | _, _ => none)

def JSVal.isStr : JSVal → Bool
  | JSVal.str _ => true
  | _ => false

/-- JavaScript `+` on primitives: string concatenation when either side
is a string, numeric addition otherwise. -/
def jsAdd (a b : JSVal) : JSVal :=
  if a.isStr || b.isStr then JSVal.str (jsToStr a ++ jsToStr b)
  else JSVal.num (match toNumber a, toNumber b with
    | some x, some y => some (x + y)
    | _, _ => none)

/-- JavaScript `<`: lexicographic when both are strings, otherwise
numeric with NaN comparing false. -/
def jsLt (a b : JSVal) : Bool :=
  match a, b with
  | JSVal.str x, JSVal.str y => x < y
  | _, _ =>
    match toNumber a, toNumber b with
    | some x, some y => decide (x < y)
    | _, _ => false

/-! ## The collection store (`db.js`) -/

/-- The wall-clock values a handler observes: `Date.now().toString()`,
`new Date().toISOString()`, and the date part of the ISO string. -/
structure JsTime where
  nowStr : String
  iso : String
  today : String

-- The data key-name constants of `db.js`.
namespace KEYS

def EMERGENCY_ITEMS : String := "emergency_items"

def OUTBOUND_RECORDS : String := "outbound_records"

def RETURN_RECORDS : String := "return_records"

def BORROW_RECORDS : String := "borrow_records"

def OPERATION_LOGS : String := "operation_logs"

def DATA_BACKUPS : String := "data_backups"

end KEYS

/-- The remote KV backend.  `store` is the stored array under each key
(absent keys read as `[]`, matching `data || []`); `getFails k` /
`setFails k` model `kv.get` / `kv.set` throwing on that key, which the
source catches and degrades to `[]` / `false`. -/
structure Backend where
  store : String → List Obj
  getFails : String → Bool
  setFails : String → Bool

namespace Database

/-- `Database.get`: the stored array, or `[]` when the backend throws. -/
def get (key : String) (b : Backend) : List Obj :=
  if b.getFails key then [] else b.store key

/-- `Database.set`: overwrite the collection wholesale; `false` and no
state change when the backend throws. -/
def set (key : String) (data : List Obj) (b : Backend) : Bool × Backend :=
  if b.setFails key then (false, b)
  else (true, { b with store := fun k => if k = key then data else b.store k })

/-- `Database.add`: read the full collection, push, write back. -/
def add (key : String) (item : Obj) (b : Backend) : Bool × Backend :=
  set key (Database.get key b ++ [item]) b

/-- Predicate of `data.findIndex(item => item.id === id)`. -/
def idMatches (id : String) (it : Obj) : Bool :=
  jsEq (getField it "id") (JSVal.str id)

/-- `Database.update`: shallow-merge `updates` into the first record whose
id matches; `false` and no write when no record matches. -/
def update (key : String) (id : String) (updates : Obj) (b : Backend) :
    Bool × Backend :=
  let data := Database.get key b
  match data.findIdx? (idMatches id) with
  | some index => set key (data.set index (mergeObj (data.getD index []) updates)) b
  | none => (false, b)

/-- `Database.delete`: keep the records whose id does not match, write
back. -/
def delete (key : String) (id : String) (b : Backend) : Bool × Backend :=
  let data := Database.get key b
  set key (data.filter (fun it => !idMatches id it)) b

/-- `Database.logOperation`: append an OperationLog record; the result of
the inner `add` is discarded, so failures are silent. -/
def logOperation (operation details : String) (operator : JSVal)
    (t : JsTime) (b : Backend) : Backend :=
  let log : Obj :=
    [("id", JSVal.str t.nowStr), ("timestamp", JSVal.str t.iso),
     ("operation", JSVal.str operation), ("details", JSVal.str details),
     ("operator", operator)]
  (add KEYS.OPERATION_LOGS log b).2

end Database

/-! ## The items API -/

/-- Outcome of `handlePost`, stripped of HTTP serialization: 400 with the
required-field list, 200 with the created item, or 500 when the store
append fails. -/
inductive PostResponse where
  | badRequest (required : List String)
  | created (item : Obj)
  | serverError
  deriving DecidableEq, Repr

/-- The `newItem` record literal built by `handlePost`. -/
def mkNewItem (d : Obj) (t : JsTime) : Obj :=
  [("id", JSVal.str t.nowStr),
   ("name", getField d "name"),
   ("category", getField d "category"),
   ("quantity", JSVal.num ((parseIntJS (getField d "quantity")).map (fun n => (n : ℚ)))),
   ("unit", jsOr (getField d "unit") (JSVal.str "个")),
   ("spec", jsOr (getField d "spec") (JSVal.str "")),
   ("price", JSVal.num (some (qOr0 (parseFloatJS (getField d "price"))))),
   ("source", jsOr (getField d "source") (JSVal.str "")),
   ("date", jsOr (getField d "date") (JSVal.str t.today)),
   ("operator", jsOr (getField d "operator") (JSVal.str "system")),
   ("usage", jsOr (getField d "usage") (JSVal.str "")),
   ("notes", jsOr (getField d "notes") (JSVal.str "")),
   ("totalValue", JSVal.num (some (((intOr0 (parseIntJS (getField d "quantity")) : ℤ) : ℚ) *
     qOr0 (parseFloatJS (getField d "price"))))),
   ("createdAt", JSVal.str t.iso),
   ("updatedAt", JSVal.str t.iso)]

/-- `handlePost`: validate required fields, build `newItem`, append it,
log on success. -/
def handlePost (d : Obj) (t : JsTime) (b : Backend) : PostResponse × Backend :=
  if !truthy (getField d "name") || !truthy (getField d "category") ||
      jsEq (getField d "quantity") JSVal.undef then
    (PostResponse.badRequest ["name", "category", "quantity"], b)
  else
    let newItem := mkNewItem d t
    let r := Database.add KEYS.EMERGENCY_ITEMS newItem b
    if r.1 then
      let b2 := Database.logOperation "添加物资"
        ("添加物资: " ++ jsToStr (getField newItem "name") ++ ", 数量: " ++
          jsToStr (getField newItem "quantity") ++ jsToStr (getField newItem "unit"))
        (getField newItem "operator") t r.2
      (PostResponse.created newItem, b2)
    else (PostResponse.serverError, r.2)

/-- Outcome of `handlePut`: 400 on missing id, 200, or 500 when
`Database.update` reports failure. -/
inductive PutResponse where
  | badRequest
  | success
  | serverError
  deriving DecidableEq, Repr

/-- `handlePut`: require a (truthy) id, stamp `updatedAt`, recompute
`totalValue` from the supplied field and the other field's stored value
when quantity or price is supplied, merge via `Database.update`, log on
success.  `id?` is `url.searchParams.get('id')` (`none` = absent). -/
def handlePut (id? : Option String) (d : Obj) (t : JsTime) (b : Backend) :
    PutResponse × Backend :=
  match id? with
  | none => (PutResponse.badRequest, b)
  | some id =>
    if id = "" then (PutResponse.badRequest, b)
    else
      let updates := setField d "updatedAt" (JSVal.str t.iso)
      let updates2 :=
        if !jsEq (getField d "quantity") JSVal.undef ||
            !jsEq (getField d "price") JSVal.undef then
          let items := Database.get KEYS.EMERGENCY_ITEMS b
          match items.find? (Database.idMatches id) with
          | some item =>
            let quantity :=
              if !jsEq (getField d "quantity") JSVal.undef then getField d "quantity"
              else getField item "quantity"
            let price :=
              if !jsEq (getField d "price") JSVal.undef then getField d "price"
              else getField item "price"
            setField updates "totalValue" (jsMul quantity price)
          | none => updates
        else updates
      let r := Database.update KEYS.EMERGENCY_ITEMS id updates2 b
      if r.1 then
        let b2 := Database.logOperation "更新物资" ("更新物资ID: " ++ id)
          (jsOr (getField updates2 "operator") (JSVal.str "system")) t r.2
        (PutResponse.success, b2)
      else (PutResponse.serverError, r.2)

/-- Per-category aggregate of `calculateStats`. -/
structure CatStat where
  count : ℕ
  value : JSVal
  deriving DecidableEq, Repr

/-- The stats object of `calculateStats`. -/
structure Stats where
  totalItems : ℕ
  totalValue : JSVal
  categories : List (String × CatStat)
  lowStock : List Obj
  deriving DecidableEq, Repr

/-- The projected record pushed onto `stats.lowStock`. -/
def lowStockEntry (it : Obj) : Obj :=
  [("id", getField it "id"), ("name", getField it "name"),
   ("quantity", getField it "quantity"), ("unit", getField it "unit")]

/-- The body of the `items.forEach` loop of `calculateStats`. -/
def statsStep (s : Stats) (it : Obj) : Stats :=
  let tv := jsOr (getField it "totalValue") (JSVal.num (some 0))
  let key := jsToStr (getField it "category")
  let cats0 :=
    if (s.categories.lookup key).isNone then
      s.categories ++ [(key, ⟨0, JSVal.num (some 0)⟩)]
    else s.categories
  let cats := cats0.map (fun p =>
    if p.1 = key then (p.1, ⟨p.2.count + 1, jsAdd p.2.value tv⟩) else p)
  { totalItems := s.totalItems
    totalValue := jsAdd s.totalValue tv
    categories := cats
    lowStock :=
      if jsLt (getField it "quantity") (JSVal.num (some 5)) then
        s.lowStock ++ [lowStockEntry it]
      else s.lowStock }

/-- `calculateStats`. -/
def calculateStats (items : List Obj) : Stats :=
  items.foldl statsStep
    { totalItems := items.length, totalValue := JSVal.num (some 0),
      categories := [], lowStock := [] }

/-! ## The migration API -/

/-- The parsed migration request body.  A field is `some l` when it is
present and `Array.isArray` holds of it (an array is truthy in JS, so the
source's `backupData.x && Array.isArray(backupData.x)` reduces to exactly
that); `none` covers absent, falsy and non-array values. -/
structure Backup where
  emergencyItems : Option (List Obj)
  outboundRecords : Option (List Obj)
  returnRecords : Option (List Obj)
  borrowRecords : Option (List Obj)

/-- The `result.imported` counters of `migrateData`. -/
structure Imported where
  emergencyItems : ℕ
  outboundRecords : ℕ
  returnRecords : ℕ
  borrowRecords : ℕ
  operationLogs : ℕ
  deriving DecidableEq, Repr

/-- The `result` object returned by `migrateData`. -/
structure MigrateResult where
  success : Bool
  imported : Imported
  errors : List String
  message : String
  deriving DecidableEq, Repr

/-- Element normalization of the `emergencyItems` migration block:
`{...item, id, quantity, price, totalValue, createdAt, updatedAt}` with
id coerced to string (or the synthesized fresh id `fid` when falsy),
quantity `parseInt(..) || 0`, price `parseFloat(..) || 0`, totalValue
their product. -/
def normalizeMigItem (it : Obj) (fid : String) (iso : String) : Obj :=
  mergeObj it
    [("id", if truthy (getField it "id") then JSVal.str (jsToStr (getField it "id"))
       else JSVal.str fid),
     ("quantity", JSVal.num (some ((intOr0 (parseIntJS (getField it "quantity")) : ℚ)))),
     ("price", JSVal.num (some (qOr0 (parseFloatJS (getField it "price"))))),
     ("totalValue", JSVal.num (some ((intOr0 (parseIntJS (getField it "quantity")) : ℚ) *
       qOr0 (parseFloatJS (getField it "price"))))),
     ("createdAt", jsOr (getField it "createdAt") (JSVal.str iso)),
     ("updatedAt", jsOr (getField it "updatedAt") (JSVal.str iso))]

/-- Element normalization of the outbound/return/borrow migration blocks:
id and quantity as for items, `createdAt` defaulted; no price or
totalValue. -/
def normalizeMigRecord (it : Obj) (fid : String) (iso : String) : Obj :=
  mergeObj it
    [("id", if truthy (getField it "id") then JSVal.str (jsToStr (getField it "id"))
       else JSVal.str fid),
     ("quantity", JSVal.num (some ((intOr0 (parseIntJS (getField it "quantity")) : ℚ)))),
     ("createdAt", jsOr (getField it "createdAt") (JSVal.str iso))]

/-- One migration category block: normalize, `Database.set`, count on
success, record the category's error string on failure. -/
def migBlock (key : String) (errMsg : String) (arr? : Option (List Obj))
    (normalize : Obj → String → Obj) (freshId : ℕ → String) (b : Backend) :
    Backend × ℕ × List String :=
  match arr? with
  | some arr =>
    let records := arr.mapIdx (fun i it => normalize it (freshId i))
    let r := Database.set key records b
    if r.1 then (r.2, records.length, []) else (b, 0, [errMsg])
  | none => (b, 0, [])

/-- `migrateData`: import the four categories independently, write one
summary OperationLog entry, then return overall success iff no category
failed.  `freshId c i` abstracts the `Date.now().toString() +
Math.random()` synthesized for element `i` of category `c`. -/
def migrateData (bk : Backup) (t : JsTime) (freshId : ℕ → ℕ → String)
    (b : Backend) : MigrateResult × Backend :=
  let s1 := migBlock KEYS.EMERGENCY_ITEMS "物资数据导入失败" bk.emergencyItems
    (fun it fid => normalizeMigItem it fid t.iso) (freshId 0) b
  let s2 := migBlock KEYS.OUTBOUND_RECORDS "出库记录导入失败" bk.outboundRecords
    (fun it fid => normalizeMigRecord it fid t.iso) (freshId 1) s1.1
  let s3 := migBlock KEYS.RETURN_RECORDS "归还记录导入失败" bk.returnRecords
    (fun it fid => normalizeMigRecord it fid t.iso) (freshId 2) s2.1
  let s4 := migBlock KEYS.BORROW_RECORDS "借用记录导入失败" bk.borrowRecords
    (fun it fid => normalizeMigRecord it fid t.iso) (freshId 3) s3.1
  let imported : Imported :=
    ⟨s1.2.1, s2.2.1, s3.2.1, s4.2.1, 0⟩
  let b5 := Database.logOperation "数据迁移"
    ("成功导入: 物资" ++ toString imported.emergencyItems ++ "条, 出库记录" ++
      toString imported.outboundRecords ++ "条, 归还记录" ++
      toString imported.returnRecords ++ "条, 借用记录" ++
      toString imported.borrowRecords ++ "条")
    (JSVal.str "system") t s4.1
  let errors := s1.2.2 ++ s2.2.2 ++ s3.2.2 ++ s4.2.2
  let result : MigrateResult :=
    if errors.length > 0 then
      { success := false, imported := imported, errors := errors,
        message := "数据迁移部分失败: " ++ String.intercalate ", " errors }
    else
      { success := true, imported := imported, errors := errors,
        message := "数据迁移成功完成" }
  (result, b5)

/-! ## Object access lemmas -/

theorem getField_nil (k : String) : getField [] k = JSVal.undef := rfl

theorem getField_cons (p : String × JSVal) (o : Obj) (k : String) :
    getField (p :: o) k = if p.1 = k then p.2 else getField o k := by
  by_cases hp : p.1 = k
  · simp [getField, List.find?_cons_of_pos, hp]
  · simp [getField, List.find?_cons_of_neg, hp]

theorem hasKey_nil (k : String) : hasKey [] k = false := rfl

theorem hasKey_cons (p : String × JSVal) (o : Obj) (k : String) :
    hasKey (p :: o) k = (decide (p.1 = k) || hasKey o k) := by
  simp [hasKey]

theorem getField_eq_undef_of_not_hasKey (o : Obj) (k : String)
    (h : hasKey o k = false) : getField o k = JSVal.undef := by
  have : o.find? (fun p => decide (p.1 = k)) = none :=
    List.find?_eq_none.mpr (by
      intro x hx
      simpa using List.any_eq_false.mp h x hx)
  simp [getField, this]

theorem getField_append (a b : Obj) (k : String) :
    getField (a ++ b) k =
      if hasKey a k then getField a k else getField b k := by
  induction a with
  | nil => simp [hasKey]
  | cons p a ih =>
    rw [List.cons_append, getField_cons, getField_cons, hasKey_cons, ih]
    by_cases hp : p.1 = k <;> simp [hp]

theorem getField_map_replace_self (o : Obj) (k : String) (v : JSVal)
    (h : hasKey o k = true) :
    getField (o.map (fun p => if p.1 = k then (k, v) else p)) k = v := by
  induction o with
  | nil => simp [hasKey] at h
  | cons p o ih =>
    rw [List.map_cons, getField_cons]
    by_cases hp : p.1 = k
    · simp [hp]
    · have h' : hasKey o k = true := by
        simpa [hasKey_cons, hp] using h
      simpa [hp] using ih h'

theorem getField_map_replace_ne (o : Obj) (k k' : String) (v : JSVal)
    (hne : k' ≠ k) :
    getField (o.map (fun p => if p.1 = k then (k, v) else p)) k' =
      getField o k' := by
  induction o with
  | nil => rfl
  | cons p o ih =>
    rw [List.map_cons, getField_cons, getField_cons]
    by_cases hp : p.1 = k
    · have h1 : ¬((k, v).1 = k') := fun hh => hne hh.symm
      have h2 : ¬(p.1 = k') := fun hh => hne (by rw [← hh, hp])
      simp only [if_pos hp]
      rw [if_neg h1, if_neg h2]
      exact ih
    · simp only [if_neg hp]
      by_cases hp' : p.1 = k'
      · simp [hp']
      · simpa [hp'] using ih

theorem getField_setField_self (o : Obj) (k : String) (v : JSVal) :
    getField (setField o k v) k = v := by
  unfold setField
  by_cases h : hasKey o k
  · simpa [h] using getField_map_replace_self o k v h
  · have h' : hasKey o k = false := by simpa using h
    rw [h']
    simp only [Bool.false_eq_true, if_false]
    rw [getField_append, h']
    simp [getField_cons]

theorem getField_setField_ne (o : Obj) (k k' : String) (v : JSVal)
    (hne : k' ≠ k) :
    getField (setField o k v) k' = getField o k' := by
  unfold setField
  by_cases h : hasKey o k
  · simpa [h] using getField_map_replace_ne o k k' v hne
  · have h' : hasKey o k = false := by simpa using h
    rw [h']
    simp only [Bool.false_eq_true, if_false]
    rw [getField_append]
    by_cases h2 : hasKey o k'
    · simp [h2]
    · have h2' : hasKey o k' = false := by simpa using h2
      rw [h2']
      simp only [Bool.false_eq_true, if_false]
      rw [getField_eq_undef_of_not_hasKey o k' h2', getField_cons]
      simp [Ne.symm hne, getField_nil]

theorem hasKey_map_mergeFn (a b : Obj) (k : String) :
    hasKey (a.map (fun p => if hasKey b p.1 then (p.1, getField b p.1) else p)) k =
      hasKey a k := by
  induction a with
  | nil => rfl
  | cons p a ih =>
    rw [List.map_cons, hasKey_cons, hasKey_cons, ih]
    by_cases hb : hasKey b p.1 <;> simp [hb]

theorem getField_map_mergeFn (a b : Obj) (k : String) (ha : hasKey a k = true) :
    getField (a.map (fun p => if hasKey b p.1 then (p.1, getField b p.1) else p)) k =
      if hasKey b k then getField b k else getField a k := by
  induction a with
  | nil => simp [hasKey] at ha
  | cons p a ih =>
    rw [List.map_cons, getField_cons]
    by_cases hp : p.1 = k
    · subst hp
      by_cases hb : hasKey b p.1 <;> simp [hb, getField_cons]
    · have ha' : hasKey a k = true := by simpa [hasKey_cons, hp] using ha
      have hkey : (if hasKey b p.1 then (p.1, getField b p.1) else p).1 = p.1 := by
        by_cases hb : hasKey b p.1 <;> simp [hb]
      rw [hkey, if_neg hp, ih ha', getField_cons, if_neg hp]

theorem getField_filter_pass (l : Obj) (pred : String × JSVal → Bool) (k : String)
    (h : ∀ p, p.1 = k → pred p = true) :
    getField (l.filter pred) k = getField l k := by
  induction l with
  | nil => rfl
  | cons p l ih =>
    rw [List.filter_cons]
    by_cases hp : p.1 = k
    · rw [h p hp]
      simp only [if_true]
      rw [getField_cons, getField_cons]
      simp [hp, ih]
    · by_cases hpred : pred p = true
      · rw [hpred]
        simp only [if_true]
        rw [getField_cons, getField_cons, if_neg hp, if_neg hp, ih]
      · have : pred p = false := by simpa using hpred
        rw [this]
        simp only [Bool.false_eq_true, if_false]
        rw [ih, getField_cons, if_neg hp]

theorem hasKey_filter_false (l : Obj) (pred : String × JSVal → Bool) (k : String)
    (h : hasKey l k = false) : hasKey (l.filter pred) k = false := by
  rw [hasKey, List.any_eq_false]
  intro x hx
  exact List.any_eq_false.mp h x (List.mem_of_mem_filter hx)

theorem getField_mergeObj_right (a b : Obj) (k : String)
    (h : hasKey b k = true) :
    getField (mergeObj a b) k = getField b k := by
  unfold mergeObj
  rw [getField_append, hasKey_map_mergeFn]
  by_cases ha : hasKey a k
  · rw [if_pos ha, getField_map_mergeFn a b k ha, if_pos h]
  · have ha' : hasKey a k = false := by simpa using ha
    rw [ha']
    simp only [Bool.false_eq_true, if_false]
    exact getField_filter_pass b _ k (fun p hp => by simp [hp, ha'])

theorem getField_mergeObj_left (a b : Obj) (k : String)
    (h : hasKey b k = false) :
    getField (mergeObj a b) k = getField a k := by
  unfold mergeObj
  rw [getField_append, hasKey_map_mergeFn]
  by_cases ha : hasKey a k
  · rw [if_pos ha, getField_map_mergeFn a b k ha, if_neg (by simp [h])]
  · have ha' : hasKey a k = false := by simpa using ha
    rw [ha']
    simp only [Bool.false_eq_true, if_false]
    rw [getField_eq_undef_of_not_hasKey a k ha',
      getField_eq_undef_of_not_hasKey _ k (hasKey_filter_false b _ k h)]

theorem findIdx?_rel_find? {α : Type} (p : α → Bool) (d : α) (l : List α) :
    ∀ (i j : ℕ), List.findIdx? p l i = some j →
      i ≤ j ∧ l.find? p = some (l.getD (j - i) d) := by
  induction l with
  | nil =>
    intro i j h
    simp [List.findIdx?_nil] at h
  | cons x xs ih =>
    intro i j h
    rw [List.findIdx?_cons] at h
    by_cases hx : p x = true
    · rw [if_pos hx] at h
      cases h
      exact ⟨le_refl _, by simp [List.find?_cons_of_pos _ hx]⟩
    · rw [if_neg hx] at h
      obtain ⟨hij, hfind⟩ := ih (i + 1) j h
      refine ⟨by omega, ?_⟩
      rw [List.find?_cons_of_neg _ hx, hfind]
      congr 1
      have hji : j - i = (j - (i + 1)) + 1 := by omega
      rw [hji]
      simp

theorem findIdx?_zero_find? {α : Type} (p : α → Bool) (d : α) (l : List α)
    (j : ℕ) (h : List.findIdx? p l = some j) :
    l.find? p = some (l.getD j d) := by
  have := (findIdx?_rel_find? p d l 0 j h).2
  simpa using this

/-! ## Shared concrete fixtures for witnesses -/

def sampleTime : JsTime :=
  ⟨"1700000000000", "2026-01-01T00:00:00.000Z", "2026-01-01"⟩

def itemA : Obj :=
  [("id", JSVal.str "a1"), ("name", JSVal.str "甲"),
   ("category", JSVal.str "A"), ("quantity", JSVal.num (some 2)),
   ("price", JSVal.num (some 3)), ("totalValue", JSVal.num (some 6))]

def itemB : Obj :=
  [("id", JSVal.str "b2"), ("name", JSVal.str "乙"),
   ("category", JSVal.str "B"), ("quantity", JSVal.num (some 7)),
   ("price", JSVal.num (some 1)), ("totalValue", JSVal.num (some 7))]

def sampleBackend : Backend :=
  ⟨fun k => if k = KEYS.EMERGENCY_ITEMS then [itemA, itemB] else [],
   fun _ => false, fun _ => false⟩

/-! ## C3: update on a nonexistent id -/

/-- C3: for every collection and every id that matches no record in the
stored collection, `update(key, id, updates)` returns false and the
backend is left completely unchanged (no write happens). -/
theorem update_nonexistent_id_fails (key id : String) (updates : Obj)
    (b : Backend) (h : ∀ r ∈ b.store key, Database.idMatches id r = false) :
    Database.update key id updates b = (false, b) := by
  unfold Database.update
  have hnone : List.findIdx? (Database.idMatches id) (Database.get key b) = none := by
    rw [List.findIdx?_eq_none_iff]
    intro r hr
    unfold Database.get at hr
    by_cases hg : b.getFails key
    · rw [if_pos hg] at hr
      simp at hr
    · rw [if_neg hg] at hr
      exact h r hr
  simp [hnone]

/-- Witness for C3 at a concrete store holding two items. -/
theorem update_nonexistent_id_fails_witness :
    Database.update KEYS.EMERGENCY_ITEMS "zzz" [("name", JSVal.str "丙")]
      sampleBackend = (false, sampleBackend) :=
  update_nonexistent_id_fails KEYS.EMERGENCY_ITEMS "zzz" _ sampleBackend
    (by decide)

/-! ## C4: delete removes all matching records -/

/-- C4: when the backend write succeeds, `delete(key, id)` returns true
(even when zero records matched), and a subsequent `get` holds no record
whose id matches; contrapositively `delete` returns false only on a
backend write failure. -/
theorem delete_removes_all_matches (key id : String) (b : Backend)
    (h : b.setFails key = false) :
    (Database.delete key id b).1 = true ∧
    (Database.get key (Database.delete key id b).2).filter
      (Database.idMatches id) = [] := by
  constructor
  · unfold Database.delete Database.set
    rw [h]
    simp
  · unfold Database.delete Database.set
    rw [h]
    simp only [Bool.false_eq_true, if_false]
    unfold Database.get
    by_cases hg : b.getFails key
    · simp [hg]
    · simp only [hg, Bool.false_eq_true, if_false, if_pos, eq_self_iff_true, if_true]
      apply List.filter_eq_nil_iff.mpr
      intro r hr
      have hr2 := List.of_mem_filter hr
      simp only [Bool.not_eq_true'] at hr2
      simp [hr2]

/-- Witness for C4: deleting the id "a1" from the sample store succeeds
and leaves no matching record. -/
theorem delete_removes_all_matches_witness :
    (Database.delete KEYS.EMERGENCY_ITEMS "a1" sampleBackend).1 = true ∧
    (Database.get KEYS.EMERGENCY_ITEMS
      (Database.delete KEYS.EMERGENCY_ITEMS "a1" sampleBackend).2).filter
      (Database.idMatches "a1") = [] :=
  delete_removes_all_matches KEYS.EMERGENCY_ITEMS "a1" sampleBackend rfl

/-! ## C8: add then get -/

/-- C8: a successful `add(key, record)` followed by `get(key)` returns the
previous collection with the record appended at the end, fields intact
and previous order preserved; when the record was not already present it
now occurs exactly once. -/
theorem add_then_get_appends (key : String) (item : Obj) (b : Backend)
    (hg : b.getFails key = false) (hs : b.setFails key = false)
    (hnew : item ∉ Database.get key b) :
    (Database.add key item b).1 = true ∧
    Database.get key (Database.add key item b).2 = Database.get key b ++ [item] ∧
    (Database.get key (Database.add key item b).2).count item = 1 := by
  have hv : Database.get key (Database.add key item b).2 =
      Database.get key b ++ [item] := by
    unfold Database.add Database.set
    rw [hs]
    simp only [Bool.false_eq_true, if_false]
    unfold Database.get
    simp [hg]
  refine ⟨?_, hv, ?_⟩
  · unfold Database.add Database.set
    rw [hs]
    simp
  · rw [hv, List.count_append, List.count_eq_zero.mpr hnew]
    simp

/-- Witness for C8 at the sample store. -/
theorem add_then_get_appends_witness :
    (Database.add KEYS.OUTBOUND_RECORDS itemA sampleBackend).1 = true ∧
    Database.get KEYS.OUTBOUND_RECORDS
      (Database.add KEYS.OUTBOUND_RECORDS itemA sampleBackend).2 =
      Database.get KEYS.OUTBOUND_RECORDS sampleBackend ++ [itemA] ∧
    (Database.get KEYS.OUTBOUND_RECORDS
      (Database.add KEYS.OUTBOUND_RECORDS itemA sampleBackend).2).count itemA = 1 :=
  add_then_get_appends KEYS.OUTBOUND_RECORDS itemA sampleBackend rfl rfl
    (by decide)

/-! ## POST validation (C9, C10, C1) -/

theorem jsEq_undef_iff (v : JSVal) : jsEq v JSVal.undef = true ↔ v = JSVal.undef := by
  cases v with
  | undef => simp [jsEq]
  | null => simp [jsEq]
  | bool b => simp [jsEq]
  | num o => cases o <;> simp [jsEq]
  | str s => simp [jsEq]

/-- The required-field condition of `handlePost`, as a proposition. -/
theorem post_invalid_iff (d : Obj) :
    (!truthy (getField d "name") || !truthy (getField d "category") ||
      jsEq (getField d "quantity") JSVal.undef) = true ↔
    (truthy (getField d "name") = false ∨ truthy (getField d "category") = false ∨
      getField d "quantity" = JSVal.undef) := by
  simp [jsEq_undef_iff, or_assoc]

/-- C9: a POST body missing `name`, missing `category`, or with
`quantity === undefined` is answered with the 400 response carrying the
required-field list `["name", "category", "quantity"]` and nothing is
stored (the backend is unchanged); a body whose quantity is 0 passes the
check and, when the backend append succeeds, the item is created. -/
theorem post_requires_name_category_quantity :
    (∀ (d : Obj) (t : JsTime) (b : Backend),
      (truthy (getField d "name") = false ∨ truthy (getField d "category") = false ∨
        getField d "quantity" = JSVal.undef) →
      handlePost d t b = (PostResponse.badRequest ["name", "category", "quantity"], b)) ∧
    (∀ (d : Obj) (t : JsTime) (b : Backend),
      truthy (getField d "name") = true → truthy (getField d "category") = true →
      getField d "quantity" = JSVal.num (some 0) →
      b.setFails KEYS.EMERGENCY_ITEMS = false →
      (handlePost d t b).1 = PostResponse.created (mkNewItem d t)) := by
  constructor
  · intro d t b h
    unfold handlePost
    rw [if_pos ((post_invalid_iff d).mpr h)]
  · intro d t b hn hc hq hs
    unfold handlePost
    rw [if_neg]
    · unfold Database.add Database.set
      rw [hs]
      simp
    · intro hcond
      rcases (post_invalid_iff d).mp hcond with h | h | h
      · rw [hn] at h
        simp at h
      · rw [hc] at h
        simp at h
      · rw [hq] at h
        exact JSVal.noConfusion h

/-- Witness for C9: a body missing `category` is rejected, and a body
with quantity 0 is created. -/
theorem post_requires_name_category_quantity_witness :
    handlePost [("name", JSVal.str "x"), ("quantity", JSVal.num (some 1))]
      sampleTime sampleBackend =
      (PostResponse.badRequest ["name", "category", "quantity"], sampleBackend) ∧
    (handlePost [("name", JSVal.str "x"), ("category", JSVal.str "c"),
      ("quantity", JSVal.num (some 0))] sampleTime sampleBackend).1 =
      PostResponse.created (mkNewItem [("name", JSVal.str "x"),
        ("category", JSVal.str "c"), ("quantity", JSVal.num (some 0))] sampleTime) :=
  ⟨post_requires_name_category_quantity.1 _ sampleTime sampleBackend
      (by decide),
   post_requires_name_category_quantity.2 _ sampleTime sampleBackend
      (by decide) (by decide) (by decide) rfl⟩

/-- C10: the required-field check rejects exactly when `name` is falsy,
`category` is falsy, or `quantity` is strictly `undefined`; in particular
an empty-string `name` or `category` is rejected with the 400 response,
while a `null` quantity passes validation and (when the backend append
succeeds) an item is created. -/
theorem post_validation_characterization :
    (∀ (d : Obj) (t : JsTime) (b : Backend),
      (handlePost d t b).1 = PostResponse.badRequest ["name", "category", "quantity"] ↔
        (truthy (getField d "name") = false ∨ truthy (getField d "category") = false ∨
          getField d "quantity" = JSVal.undef)) ∧
    (∀ (d : Obj) (t : JsTime) (b : Backend),
      getField d "name" = JSVal.str "" ∨ getField d "category" = JSVal.str "" →
      (handlePost d t b).1 = PostResponse.badRequest ["name", "category", "quantity"]) ∧
    (∀ (d : Obj) (t : JsTime) (b : Backend),
      truthy (getField d "name") = true → truthy (getField d "category") = true →
      getField d "quantity" = JSVal.null →
      b.setFails KEYS.EMERGENCY_ITEMS = false →
      (handlePost d t b).1 = PostResponse.created (mkNewItem d t)) := by
  refine ⟨?_, ?_, ?_⟩
  · intro d t b
    constructor
    · intro hresp
      by_contra hcond
      have hfalse : (!truthy (getField d "name") || !truthy (getField d "category") ||
          jsEq (getField d "quantity") JSVal.undef) ≠ true := fun hh =>
        hcond ((post_invalid_iff d).mp hh)
      unfold handlePost at hresp
      rw [if_neg hfalse] at hresp
      by_cases hadd : (Database.add KEYS.EMERGENCY_ITEMS (mkNewItem d t) b).1 = true
      · simp only [hadd, if_true] at hresp
        exact PostResponse.noConfusion hresp
      · rw [if_neg hadd] at hresp
        exact PostResponse.noConfusion hresp
    · intro h
      unfold handlePost
      rw [if_pos ((post_invalid_iff d).mpr h)]
  · intro d t b h
    unfold handlePost
    rw [if_pos]
    apply (post_invalid_iff d).mpr
    rcases h with h | h
    · exact Or.inl (by rw [h]; rfl)
    · exact Or.inr (Or.inl (by rw [h]; rfl))
  · intro d t b hn hc hq hs
    unfold handlePost
    rw [if_neg]
    · unfold Database.add Database.set
      rw [hs]
      simp
    · intro hcond
      rcases (post_invalid_iff d).mp hcond with h | h | h
      · rw [hn] at h
        simp at h
      · rw [hc] at h
        simp at h
      · rw [hq] at h
        exact JSVal.noConfusion h

/-- Witness for C10: an empty-string name is rejected; a null quantity is
accepted and creates an item. -/
theorem post_validation_characterization_witness :
    ((handlePost [("name", JSVal.str ""), ("category", JSVal.str "c"),
      ("quantity", JSVal.num (some 1))] sampleTime sampleBackend).1 =
      PostResponse.badRequest ["name", "category", "quantity"]) ∧
    ((handlePost [("name", JSVal.str "x"), ("category", JSVal.str "c"),
      ("quantity", JSVal.null)] sampleTime sampleBackend).1 =
      PostResponse.created (mkNewItem [("name", JSVal.str "x"),
        ("category", JSVal.str "c"), ("quantity", JSVal.null)] sampleTime)) :=
  ⟨post_validation_characterization.2.1 _ sampleTime sampleBackend
      (Or.inl (by decide)),
   post_validation_characterization.2.2 _ sampleTime sampleBackend
      (by decide) (by decide) (by decide) rfl⟩

/-! ## C1: totalValue of a created item -/

/-- C1 (amended): for every POST body that passes the required-field
check and whose quantity parses (`parseInt` non-NaN), the stored record's
`totalValue` equals the product of the stored `quantity` and `price`
(price defaulting to 0 when absent or unparsable), and the created record
is appended to the items collection.  (When quantity does not parse the
stored quantity is NaN while `totalValue` is 0 — see the
counterexample.) -/
theorem post_totalValue_is_product (d : Obj) (t : JsTime) (b : Backend) (n : ℤ)
    (hname : truthy (getField d "name") = true)
    (hcat : truthy (getField d "category") = true)
    (hq : parseIntJS (getField d "quantity") = some n)
    (hs : b.setFails KEYS.EMERGENCY_ITEMS = false) :
    (handlePost d t b).1 = PostResponse.created (mkNewItem d t) ∧
    (handlePost d t b).2.store KEYS.EMERGENCY_ITEMS =
      Database.get KEYS.EMERGENCY_ITEMS b ++ [mkNewItem d t] ∧
    getField (mkNewItem d t) "quantity" = JSVal.num (some (n : ℚ)) ∧
    getField (mkNewItem d t) "price" =
      JSVal.num (some (qOr0 (parseFloatJS (getField d "price")))) ∧
    getField (mkNewItem d t) "totalValue" =
      jsMul (getField (mkNewItem d t) "quantity")
        (getField (mkNewItem d t) "price") := by
  have hqne : ¬(getField d "quantity" = JSVal.undef) := by
    intro hh
    rw [hh] at hq
    exact Option.noConfusion hq
  have hcond : ¬((!truthy (getField d "name") || !truthy (getField d "category") ||
      jsEq (getField d "quantity") JSVal.undef) = true) := by
    intro hh
    rcases (post_invalid_iff d).mp hh with h | h | h
    · rw [hname] at h
      simp at h
    · rw [hcat] at h
      simp at h
    · exact hqne h
  have hquantity : getField (mkNewItem d t) "quantity" = JSVal.num (some (n : ℚ)) := by
    unfold mkNewItem
    rw [getField_cons, getField_cons, getField_cons, getField_cons]
    simp [hq]
  have hprice : getField (mkNewItem d t) "price" =
      JSVal.num (some (qOr0 (parseFloatJS (getField d "price")))) := by
    unfold mkNewItem
    rw [getField_cons, getField_cons, getField_cons, getField_cons,
      getField_cons, getField_cons, getField_cons]
    simp
  have htotal : getField (mkNewItem d t) "totalValue" =
      JSVal.num (some ((n : ℚ) * qOr0 (parseFloatJS (getField d "price")))) := by
    unfold mkNewItem
    rw [getField_cons, getField_cons, getField_cons, getField_cons,
      getField_cons, getField_cons, getField_cons, getField_cons,
      getField_cons, getField_cons, getField_cons, getField_cons,
      getField_cons]
    simp [hq, intOr0]
  refine ⟨?_, ?_, hquantity, hprice, ?_⟩
  · unfold handlePost
    rw [if_neg hcond]
    unfold Database.add Database.set
    rw [hs]
    simp
  · have hne : KEYS.EMERGENCY_ITEMS ≠ KEYS.OPERATION_LOGS := by decide
    unfold handlePost
    rw [if_neg hcond]
    unfold Database.logOperation Database.add Database.set
    rw [hs]
    simp only [Bool.false_eq_true, if_false, if_true]
    by_cases hlog : b.setFails KEYS.OPERATION_LOGS
    · simp [hlog]
    · simp [hlog, hne]
  · rw [htotal, hquantity, hprice]
    simp [jsMul, toNumber, qOr0]

/-- The C1 counterexample body: passes the required-field check
(`null !== undefined`) but its quantity does not parse. -/
def cexBody : Obj :=
  [("name", JSVal.str "x"), ("category", JSVal.str "c"),
   ("quantity", JSVal.null), ("price", JSVal.num (some 2))]

/-- Counterexample to C1 as stated: the body passes the required-field
check, yet the stored record has quantity NaN, price 2 and totalValue 0,
and 0 is not the product NaN·2 (which is NaN); so `totalValue` is not the
product of the quantity and price values actually stored. -/
theorem post_totalValue_not_product_cex :
    (handlePost cexBody sampleTime sampleBackend).1 =
      PostResponse.created (mkNewItem cexBody sampleTime) ∧
    getField (mkNewItem cexBody sampleTime) "quantity" = JSVal.num none ∧
    getField (mkNewItem cexBody sampleTime) "price" = JSVal.num (some 2) ∧
    getField (mkNewItem cexBody sampleTime) "totalValue" = JSVal.num (some 0) ∧
    jsMul (getField (mkNewItem cexBody sampleTime) "quantity")
        (getField (mkNewItem cexBody sampleTime) "price") = JSVal.num none ∧
    getField (mkNewItem cexBody sampleTime) "totalValue" ≠
      jsMul (getField (mkNewItem cexBody sampleTime) "quantity")
        (getField (mkNewItem cexBody sampleTime) "price") := by
  have h1 : getField (mkNewItem cexBody sampleTime) "quantity" = JSVal.num none := by
    simp [mkNewItem, cexBody, getField_cons, parseIntJS]
  have h2 : getField (mkNewItem cexBody sampleTime) "price" = JSVal.num (some 2) := by
    simp [mkNewItem, cexBody, getField_cons, parseFloatJS, qOr0]
  have h3 : getField (mkNewItem cexBody sampleTime) "totalValue" = JSVal.num (some 0) := by
    simp [mkNewItem, cexBody, getField_cons, parseIntJS, parseFloatJS, qOr0, intOr0]
  have h4 : jsMul (JSVal.num none) (JSVal.num (some 2)) = JSVal.num none := by
    simp [jsMul, toNumber]
  have hcond : ¬((!truthy (getField cexBody "name") ||
      !truthy (getField cexBody "category") ||
      jsEq (getField cexBody "quantity") JSVal.undef) = true) := by
    intro hh
    rcases (post_invalid_iff cexBody).mp hh with h | h | h <;>
      simp [cexBody, getField_cons, truthy] at h
  refine ⟨?_, h1, h2, h3, ?_, ?_⟩
  · unfold handlePost
    rw [if_neg hcond]
    unfold Database.add Database.set
    simp [sampleBackend]
  · rw [h1, h2, h4]
  · rw [h1, h2, h3, h4]
    simp

/-- Witness for the amended C1 at a concrete body with quantity "3" and
price "2.5". -/
theorem post_totalValue_is_product_witness :
    (handlePost [("name", JSVal.str "x"), ("category", JSVal.str "c"),
      ("quantity", JSVal.str "3"), ("price", JSVal.str "2.5")] sampleTime
      sampleBackend).1 =
      PostResponse.created (mkNewItem [("name", JSVal.str "x"),
        ("category", JSVal.str "c"), ("quantity", JSVal.str "3"),
        ("price", JSVal.str "2.5")] sampleTime) ∧
    (handlePost [("name", JSVal.str "x"), ("category", JSVal.str "c"),
      ("quantity", JSVal.str "3"), ("price", JSVal.str "2.5")] sampleTime
      sampleBackend).2.store KEYS.EMERGENCY_ITEMS =
      Database.get KEYS.EMERGENCY_ITEMS sampleBackend ++
        [mkNewItem [("name", JSVal.str "x"), ("category", JSVal.str "c"),
          ("quantity", JSVal.str "3"), ("price", JSVal.str "2.5")] sampleTime] ∧
    getField (mkNewItem [("name", JSVal.str "x"), ("category", JSVal.str "c"),
      ("quantity", JSVal.str "3"), ("price", JSVal.str "2.5")] sampleTime)
      "quantity" = JSVal.num (some ((3 : ℤ) : ℚ)) ∧
    getField (mkNewItem [("name", JSVal.str "x"), ("category", JSVal.str "c"),
      ("quantity", JSVal.str "3"), ("price", JSVal.str "2.5")] sampleTime)
      "price" = JSVal.num (some (qOr0 (parseFloatJS (getField
        [("name", JSVal.str "x"), ("category", JSVal.str "c"),
         ("quantity", JSVal.str "3"), ("price", JSVal.str "2.5")] "price")))) ∧
    getField (mkNewItem [("name", JSVal.str "x"), ("category", JSVal.str "c"),
      ("quantity", JSVal.str "3"), ("price", JSVal.str "2.5")] sampleTime)
      "totalValue" =
      jsMul (getField (mkNewItem [("name", JSVal.str "x"),
          ("category", JSVal.str "c"), ("quantity", JSVal.str "3"),
          ("price", JSVal.str "2.5")] sampleTime) "quantity")
        (getField (mkNewItem [("name", JSVal.str "x"),
          ("category", JSVal.str "c"), ("quantity", JSVal.str "3"),
          ("price", JSVal.str "2.5")] sampleTime) "price") :=
  post_totalValue_is_product _ sampleTime sampleBackend 3 (by decide)
    (by decide) (by decide) rfl

/-! ## C2: PUT recomputes totalValue from the other stored field -/

theorem findIdx?_lt_length {α : Type} (p : α → Bool) (l : List α) :
    ∀ (i j : ℕ), List.findIdx? p l i = some j → j - i < l.length := by
  induction l with
  | nil =>
    intro i j h
    simp [List.findIdx?_nil] at h
  | cons x xs ih =>
    intro i j h
    rw [List.findIdx?_cons] at h
    by_cases hx : p x = true
    · rw [if_pos hx] at h
      cases h
      simp
    · rw [if_neg hx] at h
      have h1 := ih (i + 1) j h
      have h2 := (findIdx?_rel_find? p x xs (i + 1) j h).1
      simp only [List.length_cons]
      omega

theorem hasKey_map_replaceFn (o : Obj) (k k' : String) (v : JSVal) :
    hasKey (o.map (fun p => if p.1 = k then (k, v) else p)) k' = hasKey o k' := by
  induction o with
  | nil => rfl
  | cons p o ih =>
    rw [List.map_cons, hasKey_cons, hasKey_cons, ih]
    by_cases hp : p.1 = k <;> simp [hp]

theorem hasKey_setField_self (o : Obj) (k : String) (v : JSVal) :
    hasKey (setField o k v) k = true := by
  unfold setField
  by_cases h : hasKey o k
  · rw [if_pos h, hasKey_map_replaceFn]
    exact h
  · rw [if_neg h]
    simp [hasKey]

theorem hasKey_setField_ne (o : Obj) (k k' : String) (v : JSVal)
    (hne : k' ≠ k) : hasKey (setField o k v) k' = hasKey o k' := by
  unfold setField
  by_cases h : hasKey o k
  · rw [if_pos h, hasKey_map_replaceFn]
  · rw [if_neg h]
    simp [hasKey, List.any_append, Ne.symm hne]

theorem jsEq_undef_eq_false_iff (v : JSVal) :
    jsEq v JSVal.undef = false ↔ v ≠ JSVal.undef := by
  constructor
  · intro h hv
    rw [hv] at h
    simp [jsEq] at h
  · intro h
    by_cases hh : jsEq v JSVal.undef = true
    · exact absurd ((jsEq_undef_iff v).mp hh) h
    · simpa using hh

/-- C2: a PUT on an existing item whose body supplies exactly one of
`price` / `quantity` (the other strictly undefined) recomputes the stored
record's `totalValue` as (supplied-or-existing quantity) × (supplied-or-
existing price) — i.e. the supplied field times the other field's
existing stored value — and refreshes `updatedAt`, answering success.
`i` is the index of the first record whose id matches. -/
theorem put_recomputes_totalValue (id : String) (d : Obj) (t : JsTime)
    (b : Backend) (i : ℕ)
    (hid : id ≠ "")
    (hone : (getField d "quantity" = JSVal.undef ∧ getField d "price" ≠ JSVal.undef) ∨
      (getField d "price" = JSVal.undef ∧ getField d "quantity" ≠ JSVal.undef))
    (hidx : List.findIdx? (Database.idMatches id)
      (Database.get KEYS.EMERGENCY_ITEMS b) = some i)
    (hs : b.setFails KEYS.EMERGENCY_ITEMS = false) :
    (handlePut (some id) d t b).1 = PutResponse.success ∧
    getField (((handlePut (some id) d t b).2.store KEYS.EMERGENCY_ITEMS).getD i [])
        "totalValue" =
      jsMul
        (if getField d "quantity" = JSVal.undef then
          getField ((Database.get KEYS.EMERGENCY_ITEMS b).getD i []) "quantity"
         else getField d "quantity")
        (if getField d "price" = JSVal.undef then
          getField ((Database.get KEYS.EMERGENCY_ITEMS b).getD i []) "price"
         else getField d "price") ∧
    getField (((handlePut (some id) d t b).2.store KEYS.EMERGENCY_ITEMS).getD i [])
        "updatedAt" = JSVal.str t.iso := by
  have hfind : (Database.get KEYS.EMERGENCY_ITEMS b).find? (Database.idMatches id) =
      some ((Database.get KEYS.EMERGENCY_ITEMS b).getD i []) :=
    findIdx?_zero_find? _ _ _ i hidx
  have hlen : i < (Database.get KEYS.EMERGENCY_ITEMS b).length := by
    have := findIdx?_lt_length (Database.idMatches id) _ 0 i hidx
    simpa using this
  have hcondtrue : (!jsEq (getField d "quantity") JSVal.undef ||
      !jsEq (getField d "price") JSVal.undef) = true := by
    rcases hone with ⟨_, hp⟩ | ⟨_, hq⟩
    · rw [(jsEq_undef_eq_false_iff _).mpr hp]
      simp
    · rw [(jsEq_undef_eq_false_iff _).mpr hq]
      simp
  -- abbreviations for the merged update object
  have key_step : ∀ (updates2 : Obj),
      (handlePut (some id) d t b) =
        (if (Database.update KEYS.EMERGENCY_ITEMS id updates2 b).1 then
          (PutResponse.success,
            Database.logOperation "更新物资" ("更新物资ID: " ++ id)
              (jsOr (getField updates2 "operator") (JSVal.str "system")) t
              (Database.update KEYS.EMERGENCY_ITEMS id updates2 b).2)
         else (PutResponse.serverError,
           (Database.update KEYS.EMERGENCY_ITEMS id updates2 b).2)) → True :=
    fun _ _ => trivial
  clear key_step
  -- unfold the handler along the established branch conditions
  unfold handlePut
  simp only []
  rw [if_neg hid]
  simp only [hcondtrue, if_true, hfind]
  set qEff := (if !jsEq (getField d "quantity") JSVal.undef then getField d "quantity"
    else getField ((Database.get KEYS.EMERGENCY_ITEMS b).getD i []) "quantity") with hqEff
  set pEff := (if !jsEq (getField d "price") JSVal.undef then getField d "price"
    else getField ((Database.get KEYS.EMERGENCY_ITEMS b).getD i []) "price") with hpEff
  set updates2 := setField (setField d "updatedAt" (JSVal.str t.iso)) "totalValue"
    (jsMul qEff pEff) with hupd
  set newList := ((Database.get KEYS.EMERGENCY_ITEMS b).set i
    (mergeObj ((Database.get KEYS.EMERGENCY_ITEMS b).getD i []) updates2)) with hnewList
  -- Database.update reduces along hidx and hs
  have hupdate : Database.update KEYS.EMERGENCY_ITEMS id updates2 b =
      (true, { b with store :=
        fun k => if k = KEYS.EMERGENCY_ITEMS then newList else b.store k }) := by
    unfold Database.update Database.set
    simp only []
    rw [hidx]
    simp only [hs, Bool.false_eq_true, if_false, hnewList]
  rw [hupdate]
  simp only [if_true]
  have hne : KEYS.EMERGENCY_ITEMS ≠ KEYS.OPERATION_LOGS := by decide
  have hstore : (Database.logOperation "更新物资" ("更新物资ID: " ++ id)
      (jsOr (getField updates2 "operator") (JSVal.str "system")) t
      { b with store :=
        fun k => if k = KEYS.EMERGENCY_ITEMS then newList else b.store k
      }).store KEYS.EMERGENCY_ITEMS = newList := by
    unfold Database.logOperation Database.add Database.set
    by_cases hlog : b.setFails KEYS.OPERATION_LOGS
    · simp [hlog]
    · simp [hlog, hne]
  have hgetD : newList.getD i [] =
      mergeObj ((Database.get KEYS.EMERGENCY_ITEMS b).getD i []) updates2 := by
    rw [hnewList, List.getD_eq_getElem?_getD, List.getElem?_set_self hlen]
    rfl
  have htv : getField (mergeObj ((Database.get KEYS.EMERGENCY_ITEMS b).getD i [])
      updates2) "totalValue" = jsMul qEff pEff := by
    rw [getField_mergeObj_right _ _ _ (by rw [hupd]; exact hasKey_setField_self _ _ _),
      hupd, getField_setField_self]
  have hua : getField (mergeObj ((Database.get KEYS.EMERGENCY_ITEMS b).getD i [])
      updates2) "updatedAt" = JSVal.str t.iso := by
    have h1 : hasKey updates2 "updatedAt" = true := by
      rw [hupd, hasKey_setField_ne _ _ _ _ (by decide)]
      exact hasKey_setField_self _ _ _
    rw [getField_mergeObj_right _ _ _ h1, hupd,
      getField_setField_ne _ _ _ _ (by decide), getField_setField_self]
  have hqiff : qEff = (if getField d "quantity" = JSVal.undef then
      getField ((Database.get KEYS.EMERGENCY_ITEMS b).getD i []) "quantity"
      else getField d "quantity") := by
    rw [hqEff]
    by_cases hq : getField d "quantity" = JSVal.undef
    · rw [if_pos hq, (jsEq_undef_iff _).mpr hq]
      simp
    · rw [if_neg hq, (jsEq_undef_eq_false_iff _).mpr hq]
      simp
  have hpiff : pEff = (if getField d "price" = JSVal.undef then
      getField ((Database.get KEYS.EMERGENCY_ITEMS b).getD i []) "price"
      else getField d "price") := by
    rw [hpEff]
    by_cases hp : getField d "price" = JSVal.undef
    · rw [if_pos hp, (jsEq_undef_iff _).mpr hp]
      simp
    · rw [if_neg hp, (jsEq_undef_eq_false_iff _).mpr hp]
      simp
  refine ⟨trivial, ?_, ?_⟩
  · simp only [hstore, hgetD, htv, hqiff, hpiff]
  · simp only [hstore, hgetD, hua]

/-- Witness for C2: updating only the price of the stored item "a1". -/
theorem put_recomputes_totalValue_witness :
    (handlePut (some "a1") [("price", JSVal.num (some 4))] sampleTime
      sampleBackend).1 = PutResponse.success ∧
    getField (((handlePut (some "a1") [("price", JSVal.num (some 4))] sampleTime
        sampleBackend).2.store KEYS.EMERGENCY_ITEMS).getD 0 []) "totalValue" =
      jsMul
        (if getField [("price", JSVal.num (some 4))] "quantity" = JSVal.undef then
          getField ((Database.get KEYS.EMERGENCY_ITEMS sampleBackend).getD 0 [])
            "quantity"
         else getField [("price", JSVal.num (some 4))] "quantity")
        (if getField [("price", JSVal.num (some 4))] "price" = JSVal.undef then
          getField ((Database.get KEYS.EMERGENCY_ITEMS sampleBackend).getD 0 [])
            "price"
         else getField [("price", JSVal.num (some 4))] "price") ∧
    getField (((handlePut (some "a1") [("price", JSVal.num (some 4))] sampleTime
        sampleBackend).2.store KEYS.EMERGENCY_ITEMS).getD 0 []) "updatedAt" =
      JSVal.str sampleTime.iso :=
  put_recomputes_totalValue "a1" [("price", JSVal.num (some 4))] sampleTime
    sampleBackend 0 (by decide) (Or.inl (by decide)) (by decide) rfl

/-! ## Migration lemmas (C5, C6) -/

theorem logOperation_store_other (op det : String) (oper : JSVal) (t : JsTime)
    (b : Backend) (k : String) (hk : k ≠ KEYS.OPERATION_LOGS) :
    (Database.logOperation op det oper t b).store k = b.store k := by
  unfold Database.logOperation Database.add Database.set
  by_cases hlog : b.setFails KEYS.OPERATION_LOGS <;> simp [hlog, hk]

theorem migBlock_eq (key errMsg : String) (arr : List Obj)
    (normalize : Obj → String → Obj) (freshId : ℕ → String) (b : Backend) :
    migBlock key errMsg (some arr) normalize freshId b =
      (if b.setFails key then (b, 0, [errMsg]) else
        ({ b with store := fun k => if k = key then
            arr.mapIdx (fun i it => normalize it (freshId i)) else b.store k },
         (arr.mapIdx (fun i it => normalize it (freshId i))).length, [])) := by
  unfold migBlock Database.set
  by_cases hs : b.setFails key <;> simp [hs]

theorem migBlock_none (key errMsg : String)
    (normalize : Obj → String → Obj) (freshId : ℕ → String) (b : Backend) :
    migBlock key errMsg none normalize freshId b = (b, 0, []) := rfl

/-- Success flag of `migrateData` is set iff the error list stayed
empty. -/
theorem migrate_success_iff_no_errors (bk : Backup) (t : JsTime)
    (freshId : ℕ → ℕ → String) (b : Backend) :
    (migrateData bk t freshId b).1.success =
      (migrateData bk t freshId b).1.errors.isEmpty := by
  unfold migrateData
  simp only []
  split
  · next h =>
    simp only []
    rw [eq_comm, List.isEmpty_eq_false_iff_exists_mem]
    rcases List.exists_mem_of_length_pos h with ⟨x, hx⟩
    exact ⟨x, hx⟩
  · next h =>
    simp only []
    rw [eq_comm, List.isEmpty_iff_length_eq_zero]
    omega

/-- Error contribution of one migration block. -/
def blockErr (arr? : Option (List Obj)) (fails : Bool) (msg : String) :
    List String :=
  match arr? with
  | none => []
  | some _ => if fails then [msg] else []

/-- Imported count contribution of one migration block. -/
def blockCount (arr? : Option (List Obj)) (fails : Bool) : ℕ :=
  match arr? with
  | none => 0
  | some a => if fails then 0 else a.length

/-- Resulting stored collection of one migration block. -/
def blockStore (arr? : Option (List Obj)) (fails : Bool)
    (norm : List Obj → List Obj) (orig : List Obj) : List Obj :=
  match arr? with
  | none => orig
  | some a => if fails then orig else norm a

theorem migBlock_err (key errMsg : String) (arr? : Option (List Obj))
    (normalize : Obj → String → Obj) (freshId : ℕ → String) (b : Backend) :
    (migBlock key errMsg arr? normalize freshId b).2.2 =
      blockErr arr? (b.setFails key) errMsg := by
  cases arr? with
  | none => rfl
  | some arr =>
    rw [migBlock_eq]
    by_cases hs : b.setFails key <;> simp [hs, blockErr]

theorem migBlock_count (key errMsg : String) (arr? : Option (List Obj))
    (normalize : Obj → String → Obj) (freshId : ℕ → String) (b : Backend) :
    (migBlock key errMsg arr? normalize freshId b).2.1 =
      blockCount arr? (b.setFails key) := by
  cases arr? with
  | none => rfl
  | some arr =>
    rw [migBlock_eq]
    by_cases hs : b.setFails key <;> simp [hs, blockCount]

theorem migBlock_setFails (key errMsg : String) (arr? : Option (List Obj))
    (normalize : Obj → String → Obj) (freshId : ℕ → String) (b : Backend) :
    ((migBlock key errMsg arr? normalize freshId b).1).setFails = b.setFails := by
  cases arr? with
  | none => rfl
  | some arr =>
    rw [migBlock_eq]
    by_cases hs : b.setFails key <;> simp [hs]

theorem migBlock_getFails (key errMsg : String) (arr? : Option (List Obj))
    (normalize : Obj → String → Obj) (freshId : ℕ → String) (b : Backend) :
    ((migBlock key errMsg arr? normalize freshId b).1).getFails = b.getFails := by
  cases arr? with
  | none => rfl
  | some arr =>
    rw [migBlock_eq]
    by_cases hs : b.setFails key <;> simp [hs]

theorem migBlock_store_self (key errMsg : String) (arr? : Option (List Obj))
    (normalize : Obj → String → Obj) (freshId : ℕ → String) (b : Backend) :
    ((migBlock key errMsg arr? normalize freshId b).1).store key =
      blockStore arr? (b.setFails key)
        (fun a => a.mapIdx (fun i it => normalize it (freshId i)))
        (b.store key) := by
  cases arr? with
  | none => rfl
  | some arr =>
    rw [migBlock_eq]
    by_cases hs : b.setFails key <;> simp [hs, blockStore]

theorem migBlock_store_other (key errMsg : String) (arr? : Option (List Obj))
    (normalize : Obj → String → Obj) (freshId : ℕ → String) (b : Backend)
    (k : String) (hk : ¬(k = key)) :
    ((migBlock key errMsg arr? normalize freshId b).1).store k = b.store k := by
  cases arr? with
  | none => rfl
  | some arr =>
    rw [migBlock_eq]
    by_cases hs : b.setFails key <;> simp [hs, hk]

/-- The error list produced by `migrateData`, block by block. -/
theorem migrateData_errors (bk : Backup) (t : JsTime)
    (freshId : ℕ → ℕ → String) (b : Backend) :
    (migrateData bk t freshId b).1.errors =
      blockErr bk.emergencyItems (b.setFails KEYS.EMERGENCY_ITEMS)
        "物资数据导入失败" ++
      blockErr bk.outboundRecords (b.setFails KEYS.OUTBOUND_RECORDS)
        "出库记录导入失败" ++
      blockErr bk.returnRecords (b.setFails KEYS.RETURN_RECORDS)
        "归还记录导入失败" ++
      blockErr bk.borrowRecords (b.setFails KEYS.BORROW_RECORDS)
        "借用记录导入失败" := by
  unfold migrateData
  simp only []
  split <;> simp only [migBlock_err, migBlock_setFails]

/-- The imported counters produced by `migrateData`, block by block. -/
theorem migrateData_imported (bk : Backup) (t : JsTime)
    (freshId : ℕ → ℕ → String) (b : Backend) :
    (migrateData bk t freshId b).1.imported =
      ⟨blockCount bk.emergencyItems (b.setFails KEYS.EMERGENCY_ITEMS),
       blockCount bk.outboundRecords (b.setFails KEYS.OUTBOUND_RECORDS),
       blockCount bk.returnRecords (b.setFails KEYS.RETURN_RECORDS),
       blockCount bk.borrowRecords (b.setFails KEYS.BORROW_RECORDS), 0⟩ := by
  unfold migrateData
  simp only []
  split <;> simp only [migBlock_count, migBlock_setFails]

/-- The stored items collection after `migrateData`. -/
theorem migrateData_store_items (bk : Backup) (t : JsTime)
    (freshId : ℕ → ℕ → String) (b : Backend) :
    (migrateData bk t freshId b).2.store KEYS.EMERGENCY_ITEMS =
      blockStore bk.emergencyItems (b.setFails KEYS.EMERGENCY_ITEMS)
        (fun a => a.mapIdx (fun i it => normalizeMigItem it (freshId 0 i) t.iso))
        (b.store KEYS.EMERGENCY_ITEMS) := by
  unfold migrateData
  simp only []
  rw [logOperation_store_other _ _ _ _ _ _ (by decide)]
  rw [migBlock_store_other _ _ _ _ _ _ _ (by decide),
    migBlock_store_other _ _ _ _ _ _ _ (by decide),
    migBlock_store_other _ _ _ _ _ _ _ (by decide),
    migBlock_store_self]

/-- The stored outbound collection after `migrateData`. -/
theorem migrateData_store_outbound (bk : Backup) (t : JsTime)
    (freshId : ℕ → ℕ → String) (b : Backend) :
    (migrateData bk t freshId b).2.store KEYS.OUTBOUND_RECORDS =
      blockStore bk.outboundRecords (b.setFails KEYS.OUTBOUND_RECORDS)
        (fun a => a.mapIdx (fun i it => normalizeMigRecord it (freshId 1 i) t.iso))
        (b.store KEYS.OUTBOUND_RECORDS) := by
  unfold migrateData
  simp only []
  rw [logOperation_store_other _ _ _ _ _ _ (by decide)]
  rw [migBlock_store_other _ _ _ _ _ _ _ (by decide),
    migBlock_store_other _ _ _ _ _ _ _ (by decide),
    migBlock_store_self, migBlock_setFails, migBlock_store_other _ _ _ _ _ _ _ (by decide)]

/-- The stored return collection after `migrateData`. -/
theorem migrateData_store_return (bk : Backup) (t : JsTime)
    (freshId : ℕ → ℕ → String) (b : Backend) :
    (migrateData bk t freshId b).2.store KEYS.RETURN_RECORDS =
      blockStore bk.returnRecords (b.setFails KEYS.RETURN_RECORDS)
        (fun a => a.mapIdx (fun i it => normalizeMigRecord it (freshId 2 i) t.iso))
        (b.store KEYS.RETURN_RECORDS) := by
  unfold migrateData
  simp only []
  rw [logOperation_store_other _ _ _ _ _ _ (by decide)]
  rw [migBlock_store_other _ _ _ _ _ _ _ (by decide),
    migBlock_store_self, migBlock_setFails, migBlock_setFails,
    migBlock_store_other _ _ _ _ _ _ _ (by decide),
    migBlock_store_other _ _ _ _ _ _ _ (by decide)]

/-- The stored borrow collection after `migrateData`. -/
theorem migrateData_store_borrow (bk : Backup) (t : JsTime)
    (freshId : ℕ → ℕ → String) (b : Backend) :
    (migrateData bk t freshId b).2.store KEYS.BORROW_RECORDS =
      blockStore bk.borrowRecords (b.setFails KEYS.BORROW_RECORDS)
        (fun a => a.mapIdx (fun i it => normalizeMigRecord it (freshId 3 i) t.iso))
        (b.store KEYS.BORROW_RECORDS) := by
  unfold migrateData
  simp only []
  rw [logOperation_store_other _ _ _ _ _ _ (by decide)]
  rw [migBlock_store_self, migBlock_setFails, migBlock_setFails, migBlock_setFails,
    migBlock_store_other _ _ _ _ _ _ _ (by decide),
    migBlock_store_other _ _ _ _ _ _ _ (by decide),
    migBlock_store_other _ _ _ _ _ _ _ (by decide)]

/-! ## C5: migration normalizes the emergencyItems array -/

/-- C5: when the items write succeeds, migration stores exactly the
element-wise normalization of the backup's `emergencyItems` array and
counts its length; on the spec's example element
`{name:"x", quantity:"3", price:"2.5"}` the normalization keeps the name,
parses quantity to the integer 3 and price to 2.5, recomputes
totalValue = 7.5, and sets the synthesized id `fid` (the record has no
id of its own). -/
theorem migrate_normalizes_items (bk : Backup) (arr : List Obj) (t : JsTime)
    (freshId : ℕ → ℕ → String) (b : Backend) (fid : String)
    (harr : bk.emergencyItems = some arr)
    (hs : b.setFails KEYS.EMERGENCY_ITEMS = false) :
    (migrateData bk t freshId b).2.store KEYS.EMERGENCY_ITEMS =
      arr.mapIdx (fun i it => normalizeMigItem it (freshId 0 i) t.iso) ∧
    (migrateData bk t freshId b).1.imported.emergencyItems = arr.length ∧
    getField (normalizeMigItem [("name", JSVal.str "x"),
      ("quantity", JSVal.str "3"), ("price", JSVal.str "2.5")] fid t.iso)
      "name" = JSVal.str "x" ∧
    getField (normalizeMigItem [("name", JSVal.str "x"),
      ("quantity", JSVal.str "3"), ("price", JSVal.str "2.5")] fid t.iso)
      "quantity" = JSVal.num (some 3) ∧
    getField (normalizeMigItem [("name", JSVal.str "x"),
      ("quantity", JSVal.str "3"), ("price", JSVal.str "2.5")] fid t.iso)
      "price" = JSVal.num (some (5 / 2)) ∧
    getField (normalizeMigItem [("name", JSVal.str "x"),
      ("quantity", JSVal.str "3"), ("price", JSVal.str "2.5")] fid t.iso)
      "totalValue" = JSVal.num (some (15 / 2)) ∧
    getField (normalizeMigItem [("name", JSVal.str "x"),
      ("quantity", JSVal.str "3"), ("price", JSVal.str "2.5")] fid t.iso)
      "id" = JSVal.str fid := by
  have hq3 : parseIntJS (JSVal.str "3") = some 3 := by decide
  have hp25 : parseFloatJS (JSVal.str "2.5") = some (5 / 2) := by
    have h : "2.5".toList = ['2', '.', '5'] := rfl
    show strParseFloat "2.5" = some (5 / 2)
    simp [strParseFloat, h, parseSign, isWs, digitsVal, fracVal]
    norm_num
  refine ⟨?_, ?_, ?_, ?_, ?_, ?_, ?_⟩
  · rw [migrateData_store_items, harr, hs]
    simp [blockStore]
  · rw [migrateData_imported, harr, hs]
    simp [blockCount]
  · simp [normalizeMigItem, mergeObj, hasKey, getField_cons, getField_nil,
      truthy, jsOr, getField, List.find?]
  · simp [normalizeMigItem, mergeObj, hasKey, getField_cons, getField_nil,
      truthy, jsOr, getField, List.find?, hq3, intOr0]
  · simp [normalizeMigItem, mergeObj, hasKey, getField_cons, getField_nil,
      truthy, jsOr, getField, List.find?, hp25, qOr0]
  · simp [normalizeMigItem, mergeObj, hasKey, getField_cons, getField_nil,
      truthy, jsOr, getField, List.find?, hq3, hp25, intOr0, qOr0]
    norm_num
  · simp [normalizeMigItem, mergeObj, hasKey, getField_cons, getField_nil,
      truthy, jsOr, getField, List.find?]

/-! ## C6: per-category failure isolation in migration -/

/-- Store key of each migration category, in source order. -/
def migKey (j : Fin 4) : String :=
  if j.val = 0 then KEYS.EMERGENCY_ITEMS
  else if j.val = 1 then KEYS.OUTBOUND_RECORDS
  else if j.val = 2 then KEYS.RETURN_RECORDS
  else KEYS.BORROW_RECORDS

/-- Error string recorded for each failing migration category. -/
def migErr (j : Fin 4) : String :=
  if j.val = 0 then "物资数据导入失败"
  else if j.val = 1 then "出库记录导入失败"
  else if j.val = 2 then "归还记录导入失败"
  else "借用记录导入失败"

/-- The backup array of each migration category. -/
def migArrOf (bk : Backup) (j : Fin 4) : Option (List Obj) :=
  if j.val = 0 then bk.emergencyItems
  else if j.val = 1 then bk.outboundRecords
  else if j.val = 2 then bk.returnRecords
  else bk.borrowRecords

/-- The normalization each migration category applies. -/
def migNorm (t : JsTime) (freshId : ℕ → ℕ → String) (j : Fin 4)
    (a : List Obj) : List Obj :=
  if j.val = 0 then a.mapIdx (fun i it => normalizeMigItem it (freshId 0 i) t.iso)
  else if j.val = 1 then a.mapIdx (fun i it => normalizeMigRecord it (freshId 1 i) t.iso)
  else if j.val = 2 then a.mapIdx (fun i it => normalizeMigRecord it (freshId 2 i) t.iso)
  else a.mapIdx (fun i it => normalizeMigRecord it (freshId 3 i) t.iso)

/-- The imported counter of each migration category. -/
def migImportedOf (r : MigrateResult) (j : Fin 4) : ℕ :=
  if j.val = 0 then r.imported.emergencyItems
  else if j.val = 1 then r.imported.outboundRecords
  else if j.val = 2 then r.imported.returnRecords
  else r.imported.borrowRecords

theorem blockErr_ok (arr? : Option (List Obj)) (m : String) :
    blockErr arr? false m = [] := by
  cases arr? <;> simp [blockErr]

/-- C6: when exactly one migration category's store write fails (and that
category is present in the backup), `migrateData` still imports every
other category present — storing its normalized array and counting its
length — records exactly that category's error string, and reports
`success = false`; in general `success` is true iff the error list is
empty. -/
theorem migrate_partial_failure (bk : Backup) (t : JsTime)
    (freshId : ℕ → ℕ → String) (b : Backend) (f : Fin 4)
    (hfp : migArrOf bk f ≠ none)
    (hfail : b.setFails (migKey f) = true)
    (hok : ∀ j : Fin 4, j ≠ f → b.setFails (migKey j) = false) :
    (migrateData bk t freshId b).1.errors = [migErr f] ∧
    (migrateData bk t freshId b).1.success = false ∧
    (∀ j : Fin 4, j ≠ f → ∀ a, migArrOf bk j = some a →
      (migrateData bk t freshId b).2.store (migKey j) = migNorm t freshId j a ∧
      migImportedOf (migrateData bk t freshId b).1 j = a.length) ∧
    (∀ (bk2 : Backup) (b2 : Backend),
      (migrateData bk2 t freshId b2).1.success =
        (migrateData bk2 t freshId b2).1.errors.isEmpty) := by
  have h1 : ∀ (j : Fin 4), j ≠ f →
      blockErr (migArrOf bk j) (b.setFails (migKey j)) (migErr j) = [] := by
    intro j hj
    rw [hok j hj]
    exact blockErr_ok _ _
  have herr : (migrateData bk t freshId b).1.errors = [migErr f] := by
    rw [migrateData_errors]
    obtain ⟨af, haf⟩ := Option.ne_none_iff_exists'.mp hfp
    fin_cases f
    · have haf' : bk.emergencyItems = some af := haf
      have hfail' : b.setFails KEYS.EMERGENCY_ITEMS = true := hfail
      have e1 : blockErr bk.outboundRecords (b.setFails KEYS.OUTBOUND_RECORDS)
          "出库记录导入失败" = [] := h1 1 (by decide)
      have e2 : blockErr bk.returnRecords (b.setFails KEYS.RETURN_RECORDS)
          "归还记录导入失败" = [] := h1 2 (by decide)
      have e3 : blockErr bk.borrowRecords (b.setFails KEYS.BORROW_RECORDS)
          "借用记录导入失败" = [] := h1 3 (by decide)
      show _ = ["物资数据导入失败"]
      rw [haf', e1, e2, e3]
      simp [blockErr, hfail']
    · have haf' : bk.outboundRecords = some af := haf
      have hfail' : b.setFails KEYS.OUTBOUND_RECORDS = true := hfail
      have e1 : blockErr bk.emergencyItems (b.setFails KEYS.EMERGENCY_ITEMS)
          "物资数据导入失败" = [] := h1 0 (by decide)
      have e2 : blockErr bk.returnRecords (b.setFails KEYS.RETURN_RECORDS)
          "归还记录导入失败" = [] := h1 2 (by decide)
      have e3 : blockErr bk.borrowRecords (b.setFails KEYS.BORROW_RECORDS)
          "借用记录导入失败" = [] := h1 3 (by decide)
      show _ = ["出库记录导入失败"]
      rw [haf', e1, e2, e3]
      simp [blockErr, hfail']
    · have haf' : bk.returnRecords = some af := haf
      have hfail' : b.setFails KEYS.RETURN_RECORDS = true := hfail
      have e1 : blockErr bk.emergencyItems (b.setFails KEYS.EMERGENCY_ITEMS)
          "物资数据导入失败" = [] := h1 0 (by decide)
      have e2 : blockErr bk.outboundRecords (b.setFails KEYS.OUTBOUND_RECORDS)
          "出库记录导入失败" = [] := h1 1 (by decide)
      have e3 : blockErr bk.borrowRecords (b.setFails KEYS.BORROW_RECORDS)
          "借用记录导入失败" = [] := h1 3 (by decide)
      show _ = ["归还记录导入失败"]
      rw [haf', e1, e2, e3]
      simp [blockErr, hfail']
    · have haf' : bk.borrowRecords = some af := haf
      have hfail' : b.setFails KEYS.BORROW_RECORDS = true := hfail
      have e1 : blockErr bk.emergencyItems (b.setFails KEYS.EMERGENCY_ITEMS)
          "物资数据导入失败" = [] := h1 0 (by decide)
      have e2 : blockErr bk.outboundRecords (b.setFails KEYS.OUTBOUND_RECORDS)
          "出库记录导入失败" = [] := h1 1 (by decide)
      have e3 : blockErr bk.returnRecords (b.setFails KEYS.RETURN_RECORDS)
          "归还记录导入失败" = [] := h1 2 (by decide)
      show _ = ["借用记录导入失败"]
      rw [haf', e1, e2, e3]
      simp [blockErr, hfail']
  refine ⟨herr, ?_, ?_, ?_⟩
  · rw [migrate_success_iff_no_errors, herr]
    rfl
  · intro j hj a ha
    have hsf := hok j hj
    fin_cases j
    · have ha' : bk.emergencyItems = some a := ha
      have hsf' : b.setFails KEYS.EMERGENCY_ITEMS = false := hsf
      refine ⟨?_, ?_⟩
      · show (migrateData bk t freshId b).2.store KEYS.EMERGENCY_ITEMS =
          List.mapIdx (fun i it => normalizeMigItem it (freshId 0 i) t.iso) a
        rw [migrateData_store_items, ha', hsf']
        simp [blockStore]
      · show (migrateData bk t freshId b).1.imported.emergencyItems = a.length
        rw [migrateData_imported, ha', hsf']
        simp [blockCount]
    · have ha' : bk.outboundRecords = some a := ha
      have hsf' : b.setFails KEYS.OUTBOUND_RECORDS = false := hsf
      refine ⟨?_, ?_⟩
      · show (migrateData bk t freshId b).2.store KEYS.OUTBOUND_RECORDS =
          List.mapIdx (fun i it => normalizeMigRecord it (freshId 1 i) t.iso) a
        rw [migrateData_store_outbound, ha', hsf']
        simp [blockStore]
      · show (migrateData bk t freshId b).1.imported.outboundRecords = a.length
        rw [migrateData_imported, ha', hsf']
        simp [blockCount]
    · have ha' : bk.returnRecords = some a := ha
      have hsf' : b.setFails KEYS.RETURN_RECORDS = false := hsf
      refine ⟨?_, ?_⟩
      · show (migrateData bk t freshId b).2.store KEYS.RETURN_RECORDS =
          List.mapIdx (fun i it => normalizeMigRecord it (freshId 2 i) t.iso) a
        rw [migrateData_store_return, ha', hsf']
        simp [blockStore]
      · show (migrateData bk t freshId b).1.imported.returnRecords = a.length
        rw [migrateData_imported, ha', hsf']
        simp [blockCount]
    · have ha' : bk.borrowRecords = some a := ha
      have hsf' : b.setFails KEYS.BORROW_RECORDS = false := hsf
      refine ⟨?_, ?_⟩
      · show (migrateData bk t freshId b).2.store KEYS.BORROW_RECORDS =
          List.mapIdx (fun i it => normalizeMigRecord it (freshId 3 i) t.iso) a
        rw [migrateData_store_borrow, ha', hsf']
        simp [blockStore]
      · show (migrateData bk t freshId b).1.imported.borrowRecords = a.length
        rw [migrateData_imported, ha', hsf']
        simp [blockCount]
  · intro bk2 b2
    exact migrate_success_iff_no_errors bk2 t freshId b2

/-- The spec's migration example backup: one item with string-typed
numeric fields and no id. -/
def exampleMigBackup : Backup :=
  ⟨some [[("name", JSVal.str "x"), ("quantity", JSVal.str "3"),
    ("price", JSVal.str "2.5")]], none, none, none⟩

/-- Witness for C5 at the spec's example backup. -/
theorem migrate_normalizes_items_witness :
    (migrateData exampleMigBackup sampleTime (fun _ _ => "FID")
      sampleBackend).2.store KEYS.EMERGENCY_ITEMS =
      [[("name", JSVal.str "x"), ("quantity", JSVal.str "3"),
        ("price", JSVal.str "2.5")]].mapIdx
        (fun i it => normalizeMigItem it ((fun _ _ => "FID" : ℕ → ℕ → String) 0 i)
          sampleTime.iso) ∧
    (migrateData exampleMigBackup sampleTime (fun _ _ => "FID")
      sampleBackend).1.imported.emergencyItems =
      [[("name", JSVal.str "x"), ("quantity", JSVal.str "3"),
        ("price", JSVal.str "2.5")]].length ∧
    getField (normalizeMigItem [("name", JSVal.str "x"),
      ("quantity", JSVal.str "3"), ("price", JSVal.str "2.5")] "FID"
      sampleTime.iso) "name" = JSVal.str "x" ∧
    getField (normalizeMigItem [("name", JSVal.str "x"),
      ("quantity", JSVal.str "3"), ("price", JSVal.str "2.5")] "FID"
      sampleTime.iso) "quantity" = JSVal.num (some 3) ∧
    getField (normalizeMigItem [("name", JSVal.str "x"),
      ("quantity", JSVal.str "3"), ("price", JSVal.str "2.5")] "FID"
      sampleTime.iso) "price" = JSVal.num (some (5 / 2)) ∧
    getField (normalizeMigItem [("name", JSVal.str "x"),
      ("quantity", JSVal.str "3"), ("price", JSVal.str "2.5")] "FID"
      sampleTime.iso) "totalValue" = JSVal.num (some (15 / 2)) ∧
    getField (normalizeMigItem [("name", JSVal.str "x"),
      ("quantity", JSVal.str "3"), ("price", JSVal.str "2.5")] "FID"
      sampleTime.iso) "id" = JSVal.str "FID" :=
  migrate_normalizes_items exampleMigBackup _ sampleTime _ sampleBackend "FID"
    rfl rfl

/-- A backup holding all four categories. -/
def fullMigBackup : Backup :=
  ⟨some [[("name", JSVal.str "x")]], some [], some [], some []⟩

/-- A backend whose writes fail exactly on the items key. -/
def failItemsBackend : Backend :=
  ⟨fun _ => [], fun _ => false, fun k => k = KEYS.EMERGENCY_ITEMS⟩

/-- Witness for C6: items key failing; outbound still imported, the
items error listed, overall success false. -/
theorem migrate_partial_failure_witness :
    (migrateData fullMigBackup sampleTime (fun _ _ => "FID")
      failItemsBackend).1.errors = [migErr 0] ∧
    (migrateData fullMigBackup sampleTime (fun _ _ => "FID")
      failItemsBackend).1.success = false ∧
    (migrateData fullMigBackup sampleTime (fun _ _ => "FID")
      failItemsBackend).2.store (migKey 1) =
      migNorm sampleTime (fun _ _ => "FID") 1 [] :=
  ⟨(migrate_partial_failure fullMigBackup sampleTime (fun _ _ => "FID")
      failItemsBackend 0 (by decide) (by decide) (by decide)).1,
   (migrate_partial_failure fullMigBackup sampleTime (fun _ _ => "FID")
      failItemsBackend 0 (by decide) (by decide) (by decide)).2.1,
   ((migrate_partial_failure fullMigBackup sampleTime (fun _ _ => "FID")
      failItemsBackend 0 (by decide) (by decide) (by decide)).2.2.1 1
      (by decide) [] (by decide)).1⟩

/-! ## C7: stats aggregation -/

/-- The numeric reading of an item's `totalValue` used by the spec-side
sums (missing/absent counted as 0). -/
def tvQ (it : Obj) : ℚ :=
  match getField it "totalValue" with
  | JSVal.num (some q) => q
  | _ => 0

/-- Sum of the items' `totalValue`s. -/
def sumTv (l : List Obj) : ℚ := (l.map tvQ).sum

/-- The object key an item's category coerces to. -/
def catKey (it : Obj) : String := jsToStr (getField it "category")

/-- The numeric reading of an item's quantity. -/
def qVal (it : Obj) : ℚ :=
  match getField it "quantity" with
  | JSVal.num (some q) => q
  | _ => 0

/-- The item's `totalValue` is a plain number or absent. -/
def tvNumOk (it : Obj) : Bool :=
  match getField it "totalValue" with
  | JSVal.num (some _) => true
  | JSVal.undef => true
  | _ => false

/-- The item's quantity is a plain number. -/
def qNumOk (it : Obj) : Bool :=
  match getField it "quantity" with
  | JSVal.num (some _) => true
  | _ => false

theorem jsOr_tv_eq (it : Obj) (h : tvNumOk it = true) :
    jsOr (getField it "totalValue") (JSVal.num (some 0)) =
      JSVal.num (some (tvQ it)) := by
  unfold tvNumOk at h
  unfold jsOr tvQ
  rcases hgf : getField it "totalValue" with _ | _ | bb | ov | ss
  · rfl
  · rw [hgf] at h
    simp at h
  · rw [hgf] at h
    simp at h
  · rcases ov with _ | q
    · rw [hgf] at h
      simp at h
    · by_cases hq : q = 0
      · subst hq
        simp [truthy]
      · simp [truthy, hq]
  · rw [hgf] at h
    simp at h

theorem jsAdd_num (a q : ℚ) :
    jsAdd (JSVal.num (some a)) (JSVal.num (some q)) =
      JSVal.num (some (a + q)) := by
  simp [jsAdd, JSVal.isStr, toNumber]

theorem statsStep_totalItems (s : Stats) (it : Obj) :
    (statsStep s it).totalItems = s.totalItems := rfl

theorem foldl_statsStep_totalItems (items : List Obj) (s : Stats) :
    (items.foldl statsStep s).totalItems = s.totalItems := by
  induction items generalizing s with
  | nil => rfl
  | cons it rest ih => rw [List.foldl_cons, ih, statsStep_totalItems]

theorem foldl_statsStep_totalValue (items : List Obj) (s : Stats) (a : ℚ)
    (htv : ∀ it ∈ items, tvNumOk it = true)
    (hs : s.totalValue = JSVal.num (some a)) :
    (items.foldl statsStep s).totalValue = JSVal.num (some (a + sumTv items)) := by
  induction items generalizing s a with
  | nil =>
    simp [hs, sumTv]
  | cons it rest ih =>
    rw [List.foldl_cons]
    have h1 : (statsStep s it).totalValue = JSVal.num (some (a + tvQ it)) := by
      unfold statsStep
      simp only []
      rw [jsOr_tv_eq it (htv it (List.mem_cons_self it rest)), hs, jsAdd_num]
    rw [ih _ _ (fun x hx => htv x (List.mem_cons_of_mem it hx)) h1]
    have hsum : sumTv (it :: rest) = tvQ it + sumTv rest := by
      rw [sumTv, sumTv, List.map_cons, List.sum_cons]
    rw [hsum, add_assoc]

theorem foldl_statsStep_lowStock (items : List Obj) (s : Stats) :
    (items.foldl statsStep s).lowStock =
      s.lowStock ++ (items.filter
        (fun it => jsLt (getField it "quantity") (JSVal.num (some 5)))).map
        lowStockEntry := by
  induction items generalizing s with
  | nil => simp
  | cons it rest ih =>
    rw [List.foldl_cons, ih, List.filter_cons]
    by_cases hq : jsLt (getField it "quantity") (JSVal.num (some 5)) = true
    · rw [hq]
      simp only [if_true, List.map_cons]
      show (statsStep s it).lowStock ++ _ = _
      unfold statsStep
      simp only [hq, if_true]
      rw [List.append_assoc]
      rfl
    · have hq' : jsLt (getField it "quantity") (JSVal.num (some 5)) = false := by
        simpa using hq
      rw [hq']
      simp only [Bool.false_eq_true, if_false]
      show (statsStep s it).lowStock ++ _ = _
      unfold statsStep
      simp only [hq', Bool.false_eq_true, if_false]

theorem sumTv_cons (it : Obj) (l : List Obj) :
    sumTv (it :: l) = tvQ it + sumTv l := by
  rw [sumTv, sumTv, List.map_cons, List.sum_cons]

theorem lookup_bump_self (cats : List (String × CatStat)) (key : String)
    (tv : JSVal) :
    List.lookup key (cats.map (fun p => if p.1 = key then
        (p.1, ⟨p.2.count + 1, jsAdd p.2.value tv⟩) else p)) =
      (List.lookup key cats).map
        (fun st => ⟨st.count + 1, jsAdd st.value tv⟩) := by
  induction cats with
  | nil => rfl
  | cons p cats ih =>
    cases p with
    | mk k1 v1 =>
      rw [List.map_cons]
      by_cases hp : k1 = key
      · subst hp
        simp [List.lookup_cons]
      · have hb : (key == k1) = false := by simp [Ne.symm hp]
        simp [List.lookup_cons, hp, hb, ih]

theorem lookup_bump_ne (cats : List (String × CatStat)) (key : String)
    (tv : JSVal) (c : String) (hne : c ≠ key) :
    List.lookup c (cats.map (fun p => if p.1 = key then
        (p.1, ⟨p.2.count + 1, jsAdd p.2.value tv⟩) else p)) =
      List.lookup c cats := by
  induction cats with
  | nil => rfl
  | cons p cats ih =>
    cases p with
    | mk k1 v1 =>
      rw [List.map_cons]
      by_cases hp : k1 = key
      · subst hp
        have hb : (c == k1) = false := by simp [hne]
        simp [List.lookup_cons, hb, ih]
      · by_cases hcp : c = k1
        · simp [List.lookup_cons, hp, hcp]
        · have hb : (c == k1) = false := by simp [hcp]
          simp [List.lookup_cons, hp, hb, ih]

theorem lookup_append_single_self (cats : List (String × CatStat))
    (key : String) (v : CatStat) (h : List.lookup key cats = none) :
    List.lookup key (cats ++ [(key, v)]) = some v := by
  induction cats with
  | nil => simp [List.lookup]
  | cons p cats ih =>
    cases p with
    | mk k1 v1 =>
      rw [List.cons_append, List.lookup_cons]
      rw [List.lookup_cons] at h
      by_cases hk : key = k1
      · simp only [hk, beq_self_eq_true] at h
        exact Option.noConfusion h
      · have hb : (key == k1) = false := by simp [hk]
        simp only [hb] at h ⊢
        exact ih h

theorem lookup_append_single_ne (cats : List (String × CatStat))
    (key : String) (v : CatStat) (c : String) (hne : c ≠ key) :
    List.lookup c (cats ++ [(key, v)]) = List.lookup c cats := by
  induction cats with
  | nil =>
    have hb : (c == key) = false := by simp [hne]
    simp [List.lookup, hb]
  | cons p cats ih =>
    cases p with
    | mk k1 v1 =>
      rw [List.cons_append, List.lookup_cons, List.lookup_cons]
      by_cases hcp : c = k1
      · simp [hcp]
      · have hb : (c == k1) = false := by simp [hcp]
        simp only [hb]
        exact ih

theorem statsStep_categories (s : Stats) (it : Obj) :
    (statsStep s it).categories =
      (if (List.lookup (catKey it) s.categories).isNone then
        s.categories ++ [(catKey it, ⟨0, JSVal.num (some 0)⟩)]
      else s.categories).map (fun p => if p.1 = catKey it then
        (p.1, ⟨p.2.count + 1, jsAdd p.2.value
          (jsOr (getField it "totalValue") (JSVal.num (some 0)))⟩) else p) := rfl

theorem foldl_statsStep_cats_present (items : List Obj) (c : String) :
    ∀ (s : Stats) (n : ℕ) (v : ℚ),
    (∀ it ∈ items, tvNumOk it = true) →
    List.lookup c s.categories = some ⟨n, JSVal.num (some v)⟩ →
    List.lookup c (items.foldl statsStep s).categories =
      some ⟨n + (items.filter (fun it => catKey it = c)).length,
        JSVal.num (some (v + sumTv (items.filter (fun it => catKey it = c))))⟩ := by
  induction items with
  | nil =>
    intro s n v _ hc
    simp [hc, sumTv]
  | cons it rest ih =>
    intro s n v htv hc
    rw [List.foldl_cons]
    have htvit := htv it (List.mem_cons_self it rest)
    have htvrest : ∀ x ∈ rest, tvNumOk x = true :=
      fun x hx => htv x (List.mem_cons_of_mem it hx)
    by_cases hcat : catKey it = c
    · have hiso : (List.lookup (catKey it) s.categories).isNone = false := by
        rw [hcat, hc]
        rfl
      have hstep : List.lookup c (statsStep s it).categories =
          some ⟨n + 1, JSVal.num (some (v + tvQ it))⟩ := by
        rw [statsStep_categories, hiso]
        simp only [Bool.false_eq_true, if_false]
        rw [hcat, lookup_bump_self, hc, jsOr_tv_eq it htvit]
        simp [jsAdd_num]
      rw [ih _ _ _ htvrest hstep, List.filter_cons]
      simp only [hcat, decide_True, if_true]
      rw [List.length_cons, sumTv_cons]
      refine congrArg some ?_
      congr 1
      · omega
      · rw [add_assoc]
    · have hstep : List.lookup c (statsStep s it).categories =
          some ⟨n, JSVal.num (some v)⟩ := by
        rw [statsStep_categories]
        rw [lookup_bump_ne _ _ _ _ (fun h => hcat h.symm)]
        by_cases hiso : (List.lookup (catKey it) s.categories).isNone
        · rw [if_pos hiso, lookup_append_single_ne _ _ _ _ (fun h => hcat h.symm)]
          exact hc
        · rw [if_neg hiso]
          exact hc
      rw [ih _ _ _ htvrest hstep, List.filter_cons]
      simp [hcat]

theorem foldl_statsStep_cats_absent (items : List Obj) (c : String) :
    ∀ (s : Stats),
    (∀ it ∈ items, tvNumOk it = true) →
    List.lookup c s.categories = none →
    List.lookup c (items.foldl statsStep s).categories =
      (if (items.filter (fun it => catKey it = c)) = [] then none
       else some ⟨(items.filter (fun it => catKey it = c)).length,
         JSVal.num (some (sumTv (items.filter (fun it => catKey it = c))))⟩) := by
  induction items with
  | nil =>
    intro s _ hc
    simp [hc]
  | cons it rest ih =>
    intro s htv hc
    rw [List.foldl_cons]
    have htvit := htv it (List.mem_cons_self it rest)
    have htvrest : ∀ x ∈ rest, tvNumOk x = true :=
      fun x hx => htv x (List.mem_cons_of_mem it hx)
    by_cases hcat : catKey it = c
    · have hiso : (List.lookup (catKey it) s.categories).isNone = true := by
        rw [hcat, hc]
        rfl
      have hstep : List.lookup c (statsStep s it).categories =
          some ⟨1, JSVal.num (some (tvQ it))⟩ := by
        rw [statsStep_categories, hiso]
        simp only [if_true]
        rw [hcat, lookup_bump_self, lookup_append_single_self _ _ _ (hcat ▸ hc),
          jsOr_tv_eq it htvit]
        simp [jsAdd_num]
      rw [foldl_statsStep_cats_present rest c _ 1 (tvQ it) htvrest hstep,
        List.filter_cons]
      simp only [hcat, decide_True, if_true]
      rw [sumTv_cons]
      have hne : (it :: List.filter (fun x => decide (catKey x = c)) rest) ≠ [] := by
        simp
      rw [if_neg hne, List.length_cons]
      refine congrArg some ?_
      congr 1
      · omega
    · have hstep : List.lookup c (statsStep s it).categories = none := by
        rw [statsStep_categories]
        rw [lookup_bump_ne _ _ _ _ (fun h => hcat h.symm)]
        by_cases hiso : (List.lookup (catKey it) s.categories).isNone
        · rw [if_pos hiso, lookup_append_single_ne _ _ _ _ (fun h => hcat h.symm)]
          exact hc
        · rw [if_neg hiso]
          exact hc
      rw [ih _ htvrest hstep, List.filter_cons]
      simp [hcat]

theorem jsLt_five (it : Obj) (h : qNumOk it = true) :
    jsLt (getField it "quantity") (JSVal.num (some 5)) = decide (qVal it < 5) := by
  unfold qNumOk at h
  rcases hgf : getField it "quantity" with _ | _ | bb | ov | ss
  · rw [hgf] at h
    simp at h
  · rw [hgf] at h
    simp at h
  · rw [hgf] at h
    simp at h
  · rcases ov with _ | q
    · rw [hgf] at h
      simp at h
    · unfold qVal
      rw [hgf]
      simp [jsLt, toNumber]
  · rw [hgf] at h
    simp at h

/-- C7: for every list of items with numeric (or absent) `totalValue` and
numeric quantity, `calculateStats` reports `totalItems` = length,
`totalValue` = the sum of the items' `totalValue`s (absent counted 0), a
per-category map whose entry for each key is the count of that category's
items and the sum of their `totalValue`s (and no entry for a category
without items), and `lowStock` = the projections of exactly the items
whose quantity is below 5. -/
theorem calculateStats_spec (items : List Obj)
    (htv : ∀ it ∈ items, tvNumOk it = true)
    (hqn : ∀ it ∈ items, qNumOk it = true) :
    (calculateStats items).totalItems = items.length ∧
    (calculateStats items).totalValue = JSVal.num (some (sumTv items)) ∧
    (∀ c : String,
      List.lookup c (calculateStats items).categories =
        (if items.filter (fun it => catKey it = c) = [] then none
         else some ⟨(items.filter (fun it => catKey it = c)).length,
           JSVal.num (some (sumTv (items.filter (fun it => catKey it = c))))⟩)) ∧
    (calculateStats items).lowStock =
      (items.filter (fun it => decide (qVal it < 5))).map lowStockEntry := by
  refine ⟨?_, ?_, ?_, ?_⟩
  · rw [calculateStats, foldl_statsStep_totalItems]
  · rw [calculateStats, foldl_statsStep_totalValue items _ 0 htv rfl, zero_add]
  · intro c
    have habs := foldl_statsStep_cats_absent items c
      ⟨items.length, JSVal.num (some 0), [], []⟩ htv rfl
    rw [calculateStats]
    exact habs
  · rw [calculateStats, foldl_statsStep_lowStock, List.nil_append]
    congr 1
    apply List.filter_congr
    intro it hit
    rw [jsLt_five it (hqn it hit)]

/-- The spec's three-item stats example. -/
def exampleStatsItems : List Obj :=
  [[("category", JSVal.str "A"), ("totalValue", JSVal.num (some 10)),
    ("quantity", JSVal.num (some 2))],
   [("category", JSVal.str "A"), ("totalValue", JSVal.num (some 5)),
    ("quantity", JSVal.num (some 1))],
   [("category", JSVal.str "B"), ("totalValue", JSVal.num (some 0)),
    ("quantity", JSVal.num (some 10))]]

/-- Witness for C7 at the spec's example: totals 15, categories
A = {count 2, value 15} and B = {count 1, value 0}, lowStock the two
small-quantity items. -/
theorem calculateStats_spec_witness :
    (calculateStats exampleStatsItems).totalItems = 3 ∧
    (calculateStats exampleStatsItems).totalValue =
      JSVal.num (some (sumTv exampleStatsItems)) ∧
    sumTv exampleStatsItems = 15 ∧
    List.lookup "A" (calculateStats exampleStatsItems).categories =
      (if exampleStatsItems.filter (fun it => catKey it = "A") = [] then none
       else some ⟨(exampleStatsItems.filter (fun it => catKey it = "A")).length,
         JSVal.num (some (sumTv (exampleStatsItems.filter
           (fun it => catKey it = "A"))))⟩) ∧
    (exampleStatsItems.filter (fun it => catKey it = "A")).length = 2 ∧
    sumTv (exampleStatsItems.filter (fun it => catKey it = "A")) = 15 ∧
    List.lookup "B" (calculateStats exampleStatsItems).categories =
      (if exampleStatsItems.filter (fun it => catKey it = "B") = [] then none
       else some ⟨(exampleStatsItems.filter (fun it => catKey it = "B")).length,
         JSVal.num (some (sumTv (exampleStatsItems.filter
           (fun it => catKey it = "B"))))⟩) ∧
    (exampleStatsItems.filter (fun it => catKey it = "B")).length = 1 ∧
    sumTv (exampleStatsItems.filter (fun it => catKey it = "B")) = 0 ∧
    (calculateStats exampleStatsItems).lowStock =
      [lowStockEntry (exampleStatsItems.getD 0 []),
       lowStockEntry (exampleStatsItems.getD 1 [])] := by
  obtain ⟨h1, h2, h3, h4⟩ :=
    calculateStats_spec exampleStatsItems (by decide) (by decide)
  have hsumA : sumTv (exampleStatsItems.filter (fun it => catKey it = "A")) = 15 := by
    have hfA : exampleStatsItems.filter (fun it => catKey it = "A") =
        [exampleStatsItems.getD 0 [], exampleStatsItems.getD 1 []] := by decide
    rw [hfA]
    simp [sumTv, tvQ, exampleStatsItems, getField_cons]
    norm_num
  have hsumB : sumTv (exampleStatsItems.filter (fun it => catKey it = "B")) = 0 := by
    have hfB : exampleStatsItems.filter (fun it => catKey it = "B") =
        [exampleStatsItems.getD 2 []] := by decide
    rw [hfB]
    simp [sumTv, tvQ, exampleStatsItems, getField_cons]
  have hsum : sumTv exampleStatsItems = 15 := by
    simp [sumTv, tvQ, exampleStatsItems, getField_cons]
    norm_num
  refine ⟨h1, h2, hsum, h3 "A", by decide, hsumA, h3 "B", by decide, hsumB, ?_⟩
  rw [h4]
  decide
